import Mathlib

/-!
Verification development for the inhouse 3v3 matchmaking service
(`src/backend/app.py`).  The Python source is shallowly embedded: the
relational store (SQLAlchemy session) becomes an explicit `DB` value, every
HTTP handler becomes a pure function `DB → ... → DB × Except Err α`, and the
non-deterministic inputs of the source (`random.shuffle`, `random.choice`,
`uuid.uuid4`, `datetime.now`) become explicit parameters.  Python floats that
carry scores are modelled by exact rationals (all score arithmetic in the
source is sums of configured constants), Python ints by `ℤ`, and timestamps
by an abstract integer clock where every `now()` call inside one request
returns the same instant.
-/

namespace InhouseBR

/-- Lifecycle states of a match (source: the `Match.status` string column,
values "draft", "in_progress", "finished", "canceled"). -/
inductive Status where
  | draft
  | in_progress
  | finished
  | canceled
deriving DecidableEq, Repr

/-- Cumulative per-user stats (source: `User` model columns). -/
structure UserStats where
  score : ℚ
  wins : ℤ
  losses : ℤ
  played : ℤ
  current_streak : ℤ
  max_streak : ℤ
  streaks_broken : ℤ
  correct_bets : ℤ
deriving DecidableEq, Repr

/-- Per (user, champion) stats (source: `ChampionStat` model). -/
structure ChampionStat where
  played : ℤ
  wins : ℤ
  streaks_broken : ℤ
deriving DecidableEq, Repr

/-- A bet on a match (source: `Bet` model). -/
structure Bet where
  id : String
  match_id : String
  user_id : String
  team : ℤ
deriving DecidableEq, Repr

/-- One per-user snapshot entry recorded at settlement time
(source: the dict stored under `deltas["users"][uid]` in
`_apply_finalize_and_snapshot`).  All seven keys are always written, so the
dict is modelled as a structure. -/
structure UserDelta where
  score_delta : ℚ
  wins_delta : ℤ
  losses_delta : ℤ
  played_delta : ℤ
  streak_old : ℤ
  streak_new : ℤ
  correct_bets_delta : ℤ
deriving DecidableEq, Repr

/-- One per-(user, champion) snapshot entry
(source: the dicts appended to `deltas["champions"]`). -/
structure ChampDelta where
  user_id : String
  champion : String
  played_delta : ℤ
  wins_delta : ℤ
  streaks_broken_delta : ℤ
deriving DecidableEq, Repr

/-- Settlement snapshot (source: the JSON value stored in
`Match.result_deltas`).  The source also initializes a `"bets"` sub-dict that
is never written nor read afterwards; it is omitted. -/
structure Deltas where
  users : List (String × UserDelta)
  champions : List ChampDelta
deriving DecidableEq, Repr

/-- Admin configuration (source: `AdminConfig` row with id 1).  The
`streak_bonus` JSON object becomes an association list from threshold to
bonus. -/
structure AdminConfig where
  points_win : ℚ
  points_loss : ℚ
  streak_bonus : List (ℤ × ℚ)
  active_maps : List String
  active_champions : List String
deriving DecidableEq, Repr

/-- A match row (source: `Match` model).  `picks` is the JSON object mapping
user id to chosen champion, modelled as a function to `Option`. -/
@[ext] structure Match where
  id : String
  display_id : Option String
  map : String
  status : Status
  started_at : Option ℤ
  bet_deadline : Option ℤ
  draft_round : Nat
  finished_at : Option ℤ
  team1 : List String
  team2 : List String
  picks : String → Option String
  winner_team : Option ℤ
  streaked_player_ids : List String
  t1_report : Option ℤ
  t2_report : Option ℤ
  t1_reporter : Option String
  t2_reporter : Option String
  result_deltas : Deltas

/-- The whole persistent state.  `queue` is the list of queued user ids in
join order (the source orders `QueueEntry` rows by `joined_at`).
`champStats` is total with implicit zero rows: `get_or_create_champ_stat`
creates a zero row on first access, so reads and updates through it agree
with a total function defaulting to zeroes. -/
@[ext] structure DB where
  users : String → Option UserStats
  queue : List String
  -- source column family: `matches` (a reserved word in Lean)
  matchRows : List Match
  bets : List Bet
  champStats : String → String → ChampionStat
  cfg : AdminConfig

/-- An HTTP error response (source: `HTTPException(code, msg)`). -/
structure Err where
  code : Nat
  msg : String
deriving DecidableEq, Repr

/-- Python truthiness of an optional int (reports hold 1 or 2; `None` and
`0` are falsy). -/
def otruthyZ : Option ℤ → Bool
  | none => false
  | some n => n != 0

/-- Python truthiness of an optional string (`None` and `""` are falsy). -/
def otruthyS : Option String → Bool
  | none => false
  | some s => s != ""

/-- Update the stored user row `uid` in place when it exists
(source: mutating the ORM `User` object returned by `db.get(User, uid)`). -/
def DB.updUser (db : DB) (uid : String) (f : UserStats → UserStats) : DB :=
  { db with users := fun x => if x = uid then (db.users x).map f else db.users x }

/-- Update the (user, champion) stat row in place
(source: mutating the row from `get_or_create_champ_stat`). -/
def DB.updChamp (db : DB) (uid champ : String) (f : ChampionStat → ChampionStat) : DB :=
  { db with champStats := fun a b =>
      if a = uid ∧ b = champ then f (db.champStats a b) else db.champStats a b }

/-- Source: `db.get(Match, match_id)`. -/
def DB.getMatch (db : DB) (mid : String) : Option Match :=
  db.matchRows.find? (fun m => m.id == mid)

/-- Store back a mutated match row: replaces the row with the same primary
key. -/
def DB.setMatch (db : DB) (m' : Match) : DB :=
  { db with matchRows := db.matchRows.map (fun x => if x.id = m'.id then m' else x) }

/-- Python dict read `d.get(k)` over an association list. -/
def dget {α : Type} (d : List (String × α)) (k : String) : Option α :=
  (d.find? (fun p => p.1 == k)).map (fun p => p.2)

/-- Python dict write `d[k] = v` over an association list: overwrites the
existing binding, otherwise appends. -/
def dset {α : Type} (d : List (String × α)) (k : String) (v : α) : List (String × α) :=
  if (d.find? (fun p => p.1 == k)).isSome then
    d.map (fun p => if p.1 = k then (k, v) else p)
  else d ++ [(k, v)]

/-- Source: `is_user_in_active_match` — scans all matches with status
draft/in_progress for the user in either team. -/
def is_user_in_active_match (db : DB) (uid : String) : Bool :=
  db.matchRows.any (fun m =>
    (m.status == Status.draft || m.status == Status.in_progress) &&
      (m.team1.contains uid || m.team2.contains uid))

/-- Source: `validate_not_in_match_or_queue` — 400 already_in_queue, then
400 already_in_match. -/
def validate_not_in_match_or_queue (db : DB) (uid : String) : Option Err :=
  if db.queue.contains uid then some ⟨400, "already_in_queue"⟩
  else if is_user_in_active_match db uid then some ⟨400, "already_in_match"⟩
  else none

/-- The new match row built by `create_match_internal`: first three of the
shuffled ids against the last three, everything else at its initial value,
plus the informational list of currently streaked players.  The in-place
`random.shuffle(user_ids)` result is passed in as `shuffled`; the fresh
uuid, display id and random map choice are parameters. -/
def freshMatch (db : DB) (shuffled : List String)
    (newId displayId mapName : String) : Match :=
  { id := newId, display_id := some displayId, map := mapName, status := .draft,
    started_at := none, bet_deadline := none, draft_round := 0, finished_at := none,
    team1 := shuffled.take 3, team2 := shuffled.drop 3,
    picks := fun _ => none, winner_team := none,
    streaked_player_ids := shuffled.filter (fun uid =>
      match db.users uid with
      | some u => decide (3 ≤ u.current_streak)
      | none => false),
    t1_report := none, t2_report := none,
    t1_reporter := none, t2_reporter := none, result_deltas := ⟨[], []⟩ }

def create_match_internal (db : DB) (user_ids : List String)
    (shuffled : List String) (newId displayId mapName : String) :
    DB × Except Err Match :=
  if user_ids.length ≠ 6 then (db, .error ⟨400, "need_6_players"⟩)
  else
    match user_ids.find? (fun uid => is_user_in_active_match db uid) with
    | some uid => (db, .error ⟨400, "user_in_other_match:" ++ uid⟩)
    | none =>
      let m : Match := freshMatch db shuffled newId displayId mapName
      ({ db with matchRows := db.matchRows ++ [m] }, .ok m)

/-- Source: `queue_enter` — 404 when the user row is missing, then the queue
and active-match validation, then append a ticket; when the queue reaches
six the oldest six tickets are deleted and handed to match formation.  The
deletion is committed before `create_match_internal` runs, so a failure
there still leaves the tickets consumed (hence the state is threaded into
the error case too). -/
def queue_enter (db : DB) (uid : String) (shuffle : List String → List String)
    (newId displayId mapName : String) : DB × Except Err (Option String) :=
  match db.users uid with
  | none => (db, .error ⟨404, "user_not_found"⟩)
  | some _ =>
    match validate_not_in_match_or_queue db uid with
    | some e => (db, .error e)
    | none =>
      let q1 := db.queue ++ [uid]
      if 6 ≤ q1.length then
        let six := q1.take 6
        let db2 := { db with queue := q1.drop 6 }
        match create_match_internal db2 six (shuffle six) newId displayId mapName with
        | (db3, .ok m) => (db3, .ok (some m.id))
        | (db3, .error e) => (db3, .error e)
      else ({ db with queue := q1 }, .ok none)

/-- Source: `try_advance_round_or_start`.  `u1`/`u2` are `t1[r]`/`t2[r]`
guarded by `r < len(team)`; the advance condition tests Python truthiness of
the ids and of both recorded picks.  When three rounds are done and the
match is still in draft it starts: `started_at = now()`,
`bet_deadline = now() + timedelta(minutes=10)` (600 on the integer clock in
seconds; both `now()` calls of the handler are the same instant here). -/
def try_advance_round_or_start (nowT : ℤ) (m : Match) : Match :=
  let t1 := m.team1
  let t2 := m.team2
  let picks := m.picks
  let r := m.draft_round
  let m1 :=
    if r < 3 then
      match t1.get? r, t2.get? r with
      | some u1, some u2 =>
        if u1 != "" && u2 != "" && otruthyS (picks u1) && otruthyS (picks u2) then
          { m with draft_round := r + 1 }
        else m
      | _, _ => m
    else m
  if 3 ≤ m1.draft_round ∧ m1.status = .draft then
    { m1 with status := .in_progress, started_at := some nowT,
              bet_deadline := some (nowT + 600) }
  else m1

/-- Source: the index expression of `draft_pick` —
`t1.index(u) if u in t1 else t2.index(u) if u in t2 else -1`. -/
def rosterIdx (m : Match) (uid : String) : ℤ :=
  if m.team1.contains uid then (m.team1.indexOf uid : ℤ)
  else if m.team2.contains uid then (m.team2.indexOf uid : ℤ)
  else -1

/-- Source: the champion-uniqueness test of `draft_pick` — membership of the
champion in the set of truthy picks of the given roster. -/
def pickedInTeam (picks : String → Option String) (team : List String)
    (champ : String) : Bool :=
  team.any (fun v => match picks v with
    | some s => s != "" && s == champ
    | none => false)

/-- Source: `draft_pick` — validation chain (404 unknown match, 400 not in
draft, 403 not a participant, 403 not your turn, 422 champion not allowed,
422 champion already picked in team), then record the pick and re-run the
round-advance check. -/
def draft_pick (nowT : ℤ) (db : DB) (match_id uid champ : String) :
    DB × Except Err (Nat × Status) :=
  match db.getMatch match_id with
  | none => (db, .error ⟨404, "match_not_found"⟩)
  | some m =>
    if m.status ≠ .draft then (db, .error ⟨400, "not_in_draft"⟩)
    else if ¬ (m.team1.contains uid = true ∨ m.team2.contains uid = true) then
      (db, .error ⟨403, "not_in_match"⟩)
    else if rosterIdx m uid ≠ (m.draft_round : ℤ) then
      (db, .error ⟨403, "not_your_turn"⟩)
    else if ¬ db.cfg.active_champions.contains champ then
      (db, .error ⟨422, "champ_not_allowed"⟩)
    else if pickedInTeam m.picks (if m.team1.contains uid then m.team1 else m.team2) champ then
      (db, .error ⟨422, "champ_already_picked_in_team"⟩)
    else
      let m1 := try_advance_round_or_start nowT
        { m with picks := fun x => if x = uid then some champ else m.picks x }
      (db.setMatch m1, .ok (m1.draft_round, m1.status))

/-- Source: `bonusFor` is the inner loop of `_compute_streak_bonus_per_winner`:
the thresholds are iterated (the source sorts them first, which cannot change
the resulting sum) and every threshold the streak meets contributes its
bonus. -/
def bonusFor (table : List (ℤ × ℚ)) (streak : ℤ) : ℚ :=
  table.foldl (fun acc p => if p.1 ≤ streak then acc + p.2 else acc) 0

/-- Source: `_compute_streak_bonus_per_winner` — sums, over all losers with a
stored user row, all threshold bonuses met by that loser's current streak.
The `winners` argument of the source is unused there and dropped. -/
def compute_streak_bonus_per_winner (db : DB) (losers : List String) : ℚ :=
  losers.foldl (fun total uid =>
    match db.users uid with
    | none => total
    | some u => total + bonusFor db.cfg.streak_bonus u.current_streak) 0

/-- A losing player counts as "streaked" when their stored current streak is
at least 3 at finalization time (source: the loop building
`broken_count_by_winner`). -/
def qualifies_streaked (db : DB) (uid : String) : Bool :=
  match db.users uid with
  | some u => decide (3 ≤ u.current_streak)
  | none => false

/-- Source: the `broken_count_by_winner` dict — initialized to 0 for every
winner, then every streaked loser increments every winner's count. -/
def bcDict (db : DB) (winners losers : List String) : List (String × ℤ) :=
  let d0 := winners.foldl (fun d uid => dset d uid 0) []
  losers.foldl (fun d uid =>
    if qualifies_streaked db uid then
      winners.foldl (fun d2 w => dset d2 w ((dget d2 w).getD 0 + 1)) d
    else d) d0

/-- State threaded through the three settlement loops: the store plus the
snapshot under construction. -/
structure FinSt where
  db : DB
  uds : List (String × UserDelta)
  cds : List ChampDelta

/-- One iteration of the winners loop of `_apply_finalize_and_snapshot`:
stat updates, per-user snapshot entry, champion-stat updates with snapshot
entry, then the user-level `streaks_broken` increment (in source order). -/
def winnerStep (pw bonus : ℚ) (bc : List (String × ℤ)) (picks : String → Option String)
    (st : FinSt) (uid : String) : FinSt :=
  match st.db.users uid with
  | none => st
  | some u =>
    let inc_broken := (dget bc uid).getD 0
    let ud : UserDelta :=
      { score_delta := pw + bonus, wins_delta := 1, losses_delta := 0, played_delta := 1,
        streak_old := u.current_streak, streak_new := u.current_streak + 1,
        correct_bets_delta := 0 }
    let db1 := st.db.updUser uid (fun v =>
      { v with wins := v.wins + 1, played := v.played + 1,
               current_streak := v.current_streak + 1,
               max_streak := max v.max_streak (v.current_streak + 1),
               score := v.score + (pw + bonus) })
    let st1 : FinSt := { db := db1, uds := dset st.uds uid ud, cds := st.cds }
    let st2 : FinSt :=
      match picks uid with
      | some champ =>
        if champ ≠ "" then
          { st1 with
            db := st1.db.updChamp uid champ (fun cs =>
              { cs with played := cs.played + 1, wins := cs.wins + 1,
                        streaks_broken := cs.streaks_broken + inc_broken }),
            cds := st1.cds ++ [⟨uid, champ, 1, 1, inc_broken⟩] }
        else st1
      | none => st1
    { st2 with db := st2.db.updUser uid (fun v =>
        { v with streaks_broken := v.streaks_broken + inc_broken }) }

/-- One iteration of the losers loop of `_apply_finalize_and_snapshot`. -/
def loserStep (pl : ℚ) (picks : String → Option String) (st : FinSt) (uid : String) : FinSt :=
  match st.db.users uid with
  | none => st
  | some u =>
    let ud : UserDelta :=
      { score_delta := pl, wins_delta := 0, losses_delta := 1, played_delta := 1,
        streak_old := u.current_streak, streak_new := 0, correct_bets_delta := 0 }
    let db1 := st.db.updUser uid (fun v =>
      { v with losses := v.losses + 1, played := v.played + 1,
               score := v.score + pl, current_streak := 0 })
    let st1 : FinSt := { db := db1, uds := dset st.uds uid ud, cds := st.cds }
    match picks uid with
    | some champ =>
      if champ ≠ "" then
        { st1 with
          db := st1.db.updChamp uid champ (fun cs => { cs with played := cs.played + 1 }),
          cds := st1.cds ++ [⟨uid, champ, 1, 0, 0⟩] }
      else st1
    | none => st1

/-- One iteration of the bets loop of `_apply_finalize_and_snapshot`: a
correct bettor gains a correct_bets point; the snapshot entry is created
with zero stat deltas when the bettor was no participant, otherwise its
correct_bets_delta is bumped. -/
def betStep (wt : ℤ) (st : FinSt) (b : Bet) : FinSt :=
  if b.team = wt then
    match st.db.users b.user_id with
    | none => st
    | some u =>
      let db1 := st.db.updUser b.user_id (fun v =>
        { v with correct_bets := v.correct_bets + 1 })
      match dget st.uds b.user_id with
      | none =>
        { db := db1,
          uds := dset st.uds b.user_id
            ⟨0, 0, 0, 0, u.current_streak, u.current_streak, 1⟩,
          cds := st.cds }
      | some d =>
        { db := db1,
          uds := dset st.uds b.user_id
            { d with correct_bets_delta := d.correct_bets_delta + 1 },
          cds := st.cds }
  else st

/-- Source: the winning roster chosen inside `_apply_finalize_and_snapshot`
(`winners = t1 if body.winner_team==1 else t2`). -/
def winnersOf (m : Match) (winner_team : ℤ) : List String :=
  if winner_team = 1 then m.team1 else m.team2

/-- Source: the losing roster chosen inside `_apply_finalize_and_snapshot`. -/
def losersOf (m : Match) (winner_team : ℤ) : List String :=
  if winner_team = 1 then m.team2 else m.team1

/-- Source: the bets on this match fetched at settlement time. -/
def mbetsOf (db : DB) (m : Match) : List Bet :=
  db.bets.filter (fun b => b.match_id == m.id)

/-- The mutation part of `_apply_finalize_and_snapshot`: bonus and
broken-streak counts from pre-settlement stats, then the winners, losers and
bets loops, threading the store and the snapshot under construction. -/
def finalizeSt (db : DB) (m : Match) (winner_team : ℤ) : FinSt :=
  let picks := m.picks
  let pw := db.cfg.points_win
  let pl := db.cfg.points_loss
  let winners := winnersOf m winner_team
  let losers := losersOf m winner_team
  let bonus := compute_streak_bonus_per_winner db losers
  let bc := bcDict db winners losers
  let st1 := winners.foldl (winnerStep pw bonus bc picks) ⟨db, [], []⟩
  let st2 := losers.foldl (loserStep pl picks) st1
  (mbetsOf db m).foldl (betStep winner_team) st2

/-- Source: `_apply_finalize_and_snapshot` — no-op success when already
finished, 422 on an invalid winner, otherwise the three settlement loops of
`finalizeSt` run and the match row is marked finished with the snapshot
stored. -/
def apply_finalize_and_snapshot (nowT : ℤ) (db : DB) (match_id : String)
    (winner_team : ℤ) : DB × Except Err Unit :=
  match db.getMatch match_id with
  | none => (db, .error ⟨404, "match_not_found"⟩)
  | some m =>
    if m.status = .finished then (db, .ok ())
    else if winner_team ≠ 1 ∧ winner_team ≠ 2 then
      (db, .error ⟨422, "invalid_winner_team"⟩)
    else
      let st3 := finalizeSt db m winner_team
      let m' : Match :=
        { m with status := .finished, winner_team := some winner_team,
                 finished_at := some nowT, result_deltas := ⟨st3.uds, st3.cds⟩ }
      (st3.db.setMatch m', .ok ())

/-- Outcomes of the `/match/finalize` consensus endpoint that are not HTTP
errors: settlement done, conflicting reports (HTTP 409 body), or waiting for
the other side. -/
inductive FinResp where
  | settled
  | mismatch (t1r t2r : Option ℤ) (t1rep t2rep : Option String)
  | pending (waiting : String) (t1r t2r : Option ℤ)
deriving DecidableEq, Repr

/-- Source: `match_finalize` — records the reporter's side's claim, then
settles on agreement of both sides, reports a 409 mismatch on disagreement,
or answers pending naming the side still missing. -/
def match_finalize (nowT : ℤ) (db : DB) (match_id uid : String) (wt : ℤ) :
    DB × Except Err FinResp :=
  match db.getMatch match_id with
  | none => (db, .error ⟨404, "match_not_found"⟩)
  | some m =>
    if m.status ≠ .in_progress ∧ m.status ≠ .finished then
      (db, .error ⟨400, "invalid_status"⟩)
    else if wt ≠ 1 ∧ wt ≠ 2 then (db, .error ⟨422, "invalid_winner_team"⟩)
    else
      let is_t1 := m.team1.contains uid
      let is_t2 := m.team2.contains uid
      if ¬ (is_t1 ∨ is_t2) then (db, .error ⟨403, "not_in_match"⟩)
      else
        let m1 := if is_t1 then
          { m with t1_report := some wt, t1_reporter := some uid } else m
        let m2 := if is_t2 then
          { m1 with t2_report := some wt, t2_reporter := some uid } else m1
        let db1 := db.setMatch m2
        if otruthyZ m2.t1_report ∧ otruthyZ m2.t2_report then
          if m2.t1_report = m2.t2_report then
            let p := apply_finalize_and_snapshot nowT db1 m2.id (m2.t1_report.getD 0)
            (p.1, p.2.map (fun _ => FinResp.settled))
          else
            (db1, .ok (.mismatch m2.t1_report m2.t2_report m2.t1_reporter m2.t2_reporter))
        else
          (db1, .ok (.pending (if ¬ otruthyZ m2.t1_report then "team1" else "team2")
            m2.t1_report m2.t2_report))

/-- Source: the per-user part of `_revert_snapshot` — subtract every delta,
restore the pre-settlement streak, and floor `correct_bets` at zero (the
floor is applied only when a nonzero correct_bets delta was recorded).
`max_streak` is deliberately left untouched. -/
def revUser (d : UserDelta) (u : UserStats) : UserStats :=
  let u1 := { u with score := u.score - d.score_delta, wins := u.wins - d.wins_delta,
                     losses := u.losses - d.losses_delta, played := u.played - d.played_delta,
                     current_streak := d.streak_old }
  if d.correct_bets_delta ≠ 0 then
    { u1 with correct_bets := max 0 (u1.correct_bets - d.correct_bets_delta) }
  else u1

/-- Source: the per-champion part of `_revert_snapshot` — all three deltas
subtracted with a floor of zero. -/
def revChamp (c : ChampDelta) (cs : ChampionStat) : ChampionStat :=
  { played := max 0 (cs.played - c.played_delta),
    wins := max 0 (cs.wins - c.wins_delta),
    streaks_broken := max 0 (cs.streaks_broken - c.streaks_broken_delta) }

/-- Source: `_revert_snapshot` — revert users then champion stats, then
clear the winner, the finish timestamp and the snapshot on the match row
(teams, picks and reports are preserved).  Returns the updated match row
since the callers keep mutating the same ORM object. -/
def revert_snapshot (db : DB) (m : Match) : DB × Match :=
  let db1 := m.result_deltas.users.foldl (fun d p => d.updUser p.1 (revUser p.2)) db
  let db2 := m.result_deltas.champions.foldl
    (fun d c => d.updChamp c.user_id c.champion (revChamp c)) db1
  let m1 := { m with winner_team := none, finished_at := none,
                     result_deltas := (⟨[], []⟩ : Deltas) }
  (db2.setMatch m1, m1)

/-- Source: `_find_match_by_key` — primary key first, then display id. -/
def find_match_by_key (db : DB) (key : String) : Option Match :=
  match db.getMatch key with
  | some m => some m
  | none => db.matchRows.find? (fun m => m.display_id == some key)

/-- Source: `admin_match_cancel` — revert first when the match was finished,
then mark canceled.  `tokOk` stands for `token == ADMIN_TOKEN`. -/
def admin_match_cancel (tokOk : Bool) (db : DB) (key : String) : DB × Except Err Unit :=
  if ¬ tokOk then (db, .error ⟨401, "unauthorized"⟩)
  else
    match find_match_by_key db key with
    | none => (db, .error ⟨404, "match_not_found"⟩)
    | some m =>
      let p := if m.status = .finished then revert_snapshot db m else (db, m)
      ((p.1.setMatch { p.2 with status := .canceled }), .ok ())

/-- Source: `admin_match_override` — when the match was finished: revert the
snapshot and transiently reopen it to in_progress; in every case the request
then flows into `_apply_finalize_and_snapshot` with the admin-given
winner. -/
def admin_match_override (tokOk : Bool) (nowT : ℤ) (db : DB) (key : String) (wt : ℤ) :
    DB × Except Err Unit :=
  if ¬ tokOk then (db, .error ⟨401, "unauthorized"⟩)
  else
    match find_match_by_key db key with
    | none => (db, .error ⟨404, "match_not_found"⟩)
    | some m =>
      if m.status = .finished then
        let p := revert_snapshot db m
        let db2 := p.1.setMatch { p.2 with status := .in_progress }
        apply_finalize_and_snapshot nowT db2 m.id wt
      else
        apply_finalize_and_snapshot nowT db m.id wt

/-! ### Lemmas about the store primitives -/

@[simp] theorem updUser_users_self (db : DB) (uid : String) (f : UserStats → UserStats) :
    (db.updUser uid f).users uid = (db.users uid).map f := by
  simp [DB.updUser]

theorem updUser_users_ne (db : DB) (uid x : String) (f : UserStats → UserStats)
    (h : x ≠ uid) : (db.updUser uid f).users x = db.users x := by
  simp [DB.updUser, h]

@[simp] theorem updUser_queue (db : DB) (uid : String) (f : UserStats → UserStats) :
    (db.updUser uid f).queue = db.queue := rfl

@[simp] theorem updUser_matchRows (db : DB) (uid : String) (f : UserStats → UserStats) :
    (db.updUser uid f).matchRows = db.matchRows := rfl

@[simp] theorem updUser_bets (db : DB) (uid : String) (f : UserStats → UserStats) :
    (db.updUser uid f).bets = db.bets := rfl

@[simp] theorem updUser_cfg (db : DB) (uid : String) (f : UserStats → UserStats) :
    (db.updUser uid f).cfg = db.cfg := rfl

@[simp] theorem updUser_champStats (db : DB) (uid : String) (f : UserStats → UserStats) :
    (db.updUser uid f).champStats = db.champStats := rfl

@[simp] theorem updChamp_users (db : DB) (uid c : String) (f : ChampionStat → ChampionStat) :
    (db.updChamp uid c f).users = db.users := rfl

@[simp] theorem updChamp_queue (db : DB) (uid c : String) (f : ChampionStat → ChampionStat) :
    (db.updChamp uid c f).queue = db.queue := rfl

@[simp] theorem updChamp_matchRows (db : DB) (uid c : String) (f : ChampionStat → ChampionStat) :
    (db.updChamp uid c f).matchRows = db.matchRows := rfl

@[simp] theorem updChamp_bets (db : DB) (uid c : String) (f : ChampionStat → ChampionStat) :
    (db.updChamp uid c f).bets = db.bets := rfl

@[simp] theorem updChamp_cfg (db : DB) (uid c : String) (f : ChampionStat → ChampionStat) :
    (db.updChamp uid c f).cfg = db.cfg := rfl

theorem updChamp_self (db : DB) (uid c : String) (f : ChampionStat → ChampionStat) :
    (db.updChamp uid c f).champStats uid c = f (db.champStats uid c) := by
  simp [DB.updChamp]

theorem updChamp_ne (db : DB) (uid c a b : String) (f : ChampionStat → ChampionStat)
    (h : ¬ (a = uid ∧ b = c)) :
    (db.updChamp uid c f).champStats a b = db.champStats a b := by
  simp [DB.updChamp, h]

@[simp] theorem setMatch_users (db : DB) (m' : Match) :
    (db.setMatch m').users = db.users := rfl

@[simp] theorem setMatch_queue (db : DB) (m' : Match) :
    (db.setMatch m').queue = db.queue := rfl

@[simp] theorem setMatch_bets (db : DB) (m' : Match) :
    (db.setMatch m').bets = db.bets := rfl

@[simp] theorem setMatch_cfg (db : DB) (m' : Match) :
    (db.setMatch m').cfg = db.cfg := rfl

@[simp] theorem setMatch_champStats (db : DB) (m' : Match) :
    (db.setMatch m').champStats = db.champStats := rfl

theorem getMatch_id (db : DB) (mid : String) (m : Match)
    (h : db.getMatch mid = some m) : m.id = mid := by
  have := List.find?_some h
  simpa using this

theorem find?_id_map_replace (l : List Match) (mid : String) (m m' : Match)
    (h : l.find? (fun x => x.id == mid) = some m) (hid : m'.id = mid) :
    (l.map (fun x => if x.id = m'.id then m' else x)).find? (fun x => x.id == mid)
      = some m' := by
  induction l with
  | nil => simp at h
  | cons a t ih =>
    rw [List.map_cons]
    by_cases ha : a.id = mid
    · have hhead : (if a.id = m'.id then m' else a) = m' := by
        rw [hid]; simp [ha]
      rw [hhead, List.find?_cons_of_pos _ (by simp [hid])]
    · have h' : t.find? (fun x => x.id == mid) = some m := by
        rwa [List.find?_cons_of_neg _ (by simp [ha])] at h
      have hhead : (if a.id = m'.id then m' else a) = a := by
        rw [hid]; simp [ha]
      rw [hhead, List.find?_cons_of_neg _ (by simp [ha])]
      exact ih h'

theorem find?_id_map_replace_other (l : List Match) (mid : String) (m' : Match)
    (hid : mid ≠ m'.id) :
    (l.map (fun x => if x.id = m'.id then m' else x)).find? (fun x => x.id == mid)
      = l.find? (fun x => x.id == mid) := by
  induction l with
  | nil => simp
  | cons a t ih =>
    rw [List.map_cons]
    by_cases hr : a.id = m'.id
    · rw [if_pos hr]
      rw [List.find?_cons_of_neg _ (by simp; exact fun hh => hid hh.symm)]
      rw [List.find?_cons_of_neg _ (by rw [hr]; simp; exact fun hh => hid hh.symm)]
      exact ih
    · rw [if_neg hr]
      by_cases ha : a.id = mid
      · rw [List.find?_cons_of_pos _ (by simp [ha]),
            List.find?_cons_of_pos _ (by simp [ha])]
      · rw [List.find?_cons_of_neg _ (by simp [ha]),
            List.find?_cons_of_neg _ (by simp [ha])]
        exact ih

theorem getMatch_setMatch_self (db : DB) (mid : String) (m m' : Match)
    (h : db.getMatch mid = some m) (hid : m'.id = mid) :
    (db.setMatch m').getMatch mid = some m' := by
  unfold DB.getMatch DB.setMatch at *
  exact find?_id_map_replace db.matchRows mid m m' h hid

theorem getMatch_setMatch_other (db : DB) (mid : String) (m' : Match)
    (hid : mid ≠ m'.id) :
    (db.setMatch m').getMatch mid = db.getMatch mid := by
  unfold DB.getMatch DB.setMatch
  exact find?_id_map_replace_other db.matchRows mid m' hid

theorem find_match_by_key_of_getMatch (db : DB) (key : String) (m : Match)
    (h : db.getMatch key = some m) : find_match_by_key db key = some m := by
  unfold find_match_by_key
  rw [h]

/-! ### Dictionary lemmas -/

@[simp] theorem dget_nil {α : Type} (k : String) :
    dget ([] : List (String × α)) k = none := rfl

theorem dget_cons {α : Type} (a : String) (b : α) (t : List (String × α)) (k : String) :
    dget ((a, b) :: t) k = if a = k then some b else dget t k := by
  unfold dget
  by_cases h : a = k
  · rw [List.find?_cons_of_pos _ (by simp [h]), if_pos h]
    rfl
  · rw [List.find?_cons_of_neg _ (by simp [h]), if_neg h]

theorem dget_map_keyreplace_ne {α : Type} (d : List (String × α)) (k : String) (v : α)
    (x : String) (h : x ≠ k) :
    dget (d.map (fun p => if p.1 = k then (k, v) else p)) x = dget d x := by
  induction d with
  | nil => simp
  | cons p t ih =>
    obtain ⟨a, b⟩ := p
    rw [List.map_cons]
    by_cases hk : a = k
    · have hhead : (if (a, b).1 = k then (k, v) else (a, b)) = (k, v) := by simp [hk]
      rw [hhead, dget_cons, dget_cons, if_neg (fun hh => h hh.symm),
          if_neg (by rw [hk]; exact fun hh => h hh.symm)]
      exact ih
    · have hhead : (if (a, b).1 = k then (k, v) else (a, b)) = (a, b) := by simp [hk]
      rw [hhead, dget_cons, dget_cons]
      by_cases hax : a = x
      · rw [if_pos hax, if_pos hax]
      · rw [if_neg hax, if_neg hax]
        exact ih

theorem find?_map_keyreplace_self {α : Type} (d : List (String × α)) (k : String) (v : α)
    (h : (d.find? (fun p => p.1 == k)).isSome = true) :
    dget (d.map (fun p => if p.1 = k then (k, v) else p)) k = some v := by
  induction d with
  | nil => simp at h
  | cons p t ih =>
    obtain ⟨a, b⟩ := p
    rw [List.map_cons]
    by_cases hk : a = k
    · have hhead : (if (a, b).1 = k then (k, v) else (a, b)) = (k, v) := by simp [hk]
      rw [hhead, dget_cons, if_pos rfl]
    · have hhead : (if (a, b).1 = k then (k, v) else (a, b)) = (a, b) := by simp [hk]
      have h' : (t.find? (fun q => q.1 == k)).isSome = true := by
        rwa [List.find?_cons_of_neg _ (by simp [hk])] at h
      rw [hhead, dget_cons, if_neg hk]
      exact ih h'

theorem dget_dset_self {α : Type} (d : List (String × α)) (k : String) (v : α) :
    dget (dset d k v) k = some v := by
  unfold dset
  split
  · exact find?_map_keyreplace_self d k v (by assumption)
  · rename_i h
    have hnone : d.find? (fun p => p.1 == k) = none := by
      cases hf : d.find? (fun p => p.1 == k) with
      | none => rfl
      | some p => rw [hf] at h; simp at h
    unfold dget
    rw [List.find?_append, hnone]
    simp

theorem dget_dset_ne {α : Type} (d : List (String × α)) (k : String) (v : α)
    (x : String) (h : x ≠ k) : dget (dset d k v) x = dget d x := by
  unfold dset
  split
  · exact dget_map_keyreplace_ne d k v x h
  · have h1 : List.find? (fun p => p.1 == x) [(k, v)] = none := by
      rw [List.find?_cons_of_neg _ (by simp; exact fun hh => h hh.symm)]
      rfl
    unfold dget
    rw [List.find?_append, h1]
    cases d.find? (fun p => p.1 == x) <;> simp

theorem dset_keys_map {α : Type} (d : List (String × α)) (k : String) (v : α)
    (h : (d.find? (fun p => p.1 == k)).isSome = true) :
    (dset d k v).map Prod.fst = d.map Prod.fst := by
  unfold dset
  rw [if_pos h, List.map_map]
  apply List.map_congr_left
  intro p _
  by_cases hk : p.1 = k <;> simp [hk]

theorem dget_eq_none_of_not_mem {α : Type} (d : List (String × α)) (k : String)
    (h : k ∉ d.map Prod.fst) : dget d k = none := by
  induction d with
  | nil => rfl
  | cons p t ih =>
    obtain ⟨a, b⟩ := p
    by_cases hak : a = k
    · exfalso
      apply h
      rw [List.map_cons]
      subst hak
      exact List.mem_cons_self _ _
    · rw [dget_cons, if_neg hak]
      exact ih (fun hm => h (by rw [List.map_cons]; exact List.mem_cons_of_mem _ hm))

theorem mem_keys_of_dget_isSome {α : Type} (d : List (String × α)) (k : String)
    (h : (dget d k).isSome = true) : k ∈ d.map Prod.fst := by
  by_contra hc
  rw [dget_eq_none_of_not_mem d k hc] at h
  simp at h

theorem dset_keys_nodup {α : Type} (d : List (String × α)) (k : String) (v : α)
    (h : (d.map Prod.fst).Nodup) : ((dset d k v).map Prod.fst).Nodup := by
  by_cases hs : (d.find? (fun p => p.1 == k)).isSome = true
  · rw [dset_keys_map d k v hs]; exact h
  · have hnone : d.find? (fun p => p.1 == k) = none := by
      cases hf : d.find? (fun p => p.1 == k) with
      | none => rfl
      | some p => rw [hf] at hs; simp at hs
    have hmem : k ∉ d.map Prod.fst := by
      intro hk
      rcases List.mem_map.mp hk with ⟨p, hp, hpk⟩
      have := List.find?_eq_none.mp hnone p hp
      simp [hpk] at this
    unfold dset
    rw [if_neg (by simp [hnone])]
    simp [List.nodup_append, h, hmem]

/-! ### Claim C6 -/

/-- C6: finalizing a match that is already finished is idempotent — it
returns success and the whole store (every player's score, wins, losses,
played, streak, bet and character stats, and the match's winner and
snapshot) is returned unchanged. -/
theorem c6_finalize_already_finished_noop (nowT : ℤ) (db : DB) (mid : String)
    (wt : ℤ) (m : Match) (h1 : db.getMatch mid = some m)
    (h2 : m.status = .finished) :
    apply_finalize_and_snapshot nowT db mid wt = (db, .ok ()) := by
  unfold apply_finalize_and_snapshot
  rw [h1]
  simp [h2]

def cfg0 : AdminConfig :=
  { points_win := 1, points_loss := 0,
    streak_bonus := [(3, 1/4), (6, 1/2), (9, 1)],
    active_maps := ["Mount Araz Day", "Orman Night"],
    active_champions := ["Ashka", "Bakko", "Croak", "Ezmo", "Freya", "Iva", "Jade"] }

def mFin : Match :=
  { id := "m", display_id := some "2024-01-01 10:00:00 + 1", map := "Orman Night",
    status := .finished, started_at := some 0, bet_deadline := some 600,
    draft_round := 3, finished_at := some 1000,
    team1 := ["a", "b", "c"], team2 := ["d", "e", "f"],
    picks := fun _ => none, winner_team := some 1, streaked_player_ids := [],
    t1_report := some 1, t2_report := some 1,
    t1_reporter := some "a", t2_reporter := some "d", result_deltas := ⟨[], []⟩ }

def dbFin : DB :=
  { users := fun _ => none, queue := [], matchRows := [mFin], bets := [],
    champStats := fun _ _ => ⟨0, 0, 0⟩, cfg := cfg0 }

theorem c6_witness :
    (dbFin.getMatch "m" = some mFin ∧ mFin.status = .finished) ∧
      apply_finalize_and_snapshot 0 dbFin "m" 2 = (dbFin, .ok ()) :=
  ⟨⟨rfl, rfl⟩, c6_finalize_already_finished_noop 0 dbFin "m" 2 mFin rfl rfl⟩

/-! ### Claim C7 -/

/-- C7: every rejected draft pick — unknown match, match not in draft, player
on no roster, player's roster index differing from the current draft round,
champion not in the active pool, champion already chosen inside the same
roster — answers the corresponding error of the source and returns the store
unchanged (picks, draft_round and status included). -/
theorem c7_draft_pick_rejections (nowT : ℤ) (db : DB) (mid uid champ : String) :
    (db.getMatch mid = none →
      draft_pick nowT db mid uid champ = (db, .error ⟨404, "match_not_found"⟩))
    ∧ (∀ m, db.getMatch mid = some m →
        (m.status ≠ .draft →
          draft_pick nowT db mid uid champ = (db, .error ⟨400, "not_in_draft"⟩))
        ∧ (m.status = .draft →
            ¬ (uid ∈ m.team1 ∨ uid ∈ m.team2) →
          draft_pick nowT db mid uid champ = (db, .error ⟨403, "not_in_match"⟩))
        ∧ (m.status = .draft →
            (uid ∈ m.team1 ∨ uid ∈ m.team2) →
            rosterIdx m uid ≠ (m.draft_round : ℤ) →
          draft_pick nowT db mid uid champ = (db, .error ⟨403, "not_your_turn"⟩))
        ∧ (m.status = .draft →
            (uid ∈ m.team1 ∨ uid ∈ m.team2) →
            rosterIdx m uid = (m.draft_round : ℤ) →
            champ ∉ db.cfg.active_champions →
          draft_pick nowT db mid uid champ = (db, .error ⟨422, "champ_not_allowed"⟩))
        ∧ (m.status = .draft →
            (uid ∈ m.team1 ∨ uid ∈ m.team2) →
            rosterIdx m uid = (m.draft_round : ℤ) →
            champ ∈ db.cfg.active_champions →
            pickedInTeam m.picks
              (if uid ∈ m.team1 then m.team1 else m.team2) champ = true →
          draft_pick nowT db mid uid champ
            = (db, .error ⟨422, "champ_already_picked_in_team"⟩))) := by
  constructor
  · intro h
    unfold draft_pick
    rw [h]
  · intro m hm
    refine ⟨?_, ?_, ?_, ?_, ?_⟩
    · intro hs
      unfold draft_pick
      rw [hm]
      simp [hs]
    · intro hs hmem
      unfold draft_pick
      rw [hm]
      simp [hs, hmem]
    · intro hs hmem hidx
      unfold draft_pick
      rw [hm]
      simp [hs, hmem, hidx]
    · intro hs hmem hidx hc
      unfold draft_pick
      rw [hm]
      simp [hs, hmem, hidx, hc]
    · intro hs hmem hidx hc hp
      unfold draft_pick
      rw [hm]
      simp [hs, hmem, hidx, hc, hp]

theorem c7_witness :
    (dbFin.getMatch "m" = some mFin ∧ mFin.status ≠ Status.draft) ∧
      draft_pick 0 dbFin "m" "a" "Ashka" = (dbFin, .error ⟨400, "not_in_draft"⟩) :=
  ⟨⟨rfl, by decide⟩,
    ((c7_draft_pick_rejections 0 dbFin "m" "a" "Ashka").2 mFin rfl).1 (by decide)⟩

/-! ### Claim C8 : draft round advancement -/

theorem indexOf_of_get? {l : List String} {r : Nat} {a : String} (hn : l.Nodup)
    (h : l.get? r = some a) : l.indexOf a = r := by
  rw [List.get?_eq_getElem?] at h
  obtain ⟨hr, ha⟩ := List.getElem?_eq_some.mp h
  subst ha
  exact List.indexOf_getElem hn r hr

theorem mem_of_get? {l : List String} {r : Nat} {a : String}
    (h : l.get? r = some a) : a ∈ l := by
  rw [List.get?_eq_getElem?] at h
  obtain ⟨hr, ha⟩ := List.getElem?_eq_some.mp h
  subst ha
  exact List.getElem_mem hr

theorem pickedInTeam_congr (picks picks' : String → Option String)
    (team : List String) (c : String) (h : ∀ v ∈ team, picks' v = picks v) :
    pickedInTeam picks' team c = pickedInTeam picks team c := by
  unfold pickedInTeam
  induction team with
  | nil => rfl
  | cons a t ih =>
    simp only [List.any_cons]
    rw [h a (List.mem_cons_self _ _), ih (fun v hv => h v (List.mem_cons_of_mem _ hv))]

/-- Evaluation of `try_advance_round_or_start` when the advance condition
fails (some seat of the current round still lacks a truthy pick). -/
theorem try_advance_pending (nowT : ℤ) (m : Match) (u1 u2 : String)
    (hlt : m.draft_round < 3)
    (hu1 : m.team1.get? m.draft_round = some u1)
    (hu2 : m.team2.get? m.draft_round = some u2)
    (hfalse : (u1 != "" && u2 != "" && otruthyS (m.picks u1)
                && otruthyS (m.picks u2)) = false) :
    try_advance_round_or_start nowT m = m := by
  unfold try_advance_round_or_start
  simp only [hu1, hu2, hlt, if_true, if_pos hlt]
  rw [hfalse]
  simp [Nat.not_le.mpr hlt]

/-- Evaluation of `try_advance_round_or_start` when both designated players
of the current round have truthy picks: the round advances, and the match
starts when the three rounds are complete. -/
theorem try_advance_advance (nowT : ℤ) (m : Match) (u1 u2 : String)
    (hlt : m.draft_round < 3) (hst : m.status = .draft)
    (hu1 : m.team1.get? m.draft_round = some u1)
    (hu2 : m.team2.get? m.draft_round = some u2)
    (htrue : (u1 != "" && u2 != "" && otruthyS (m.picks u1)
                && otruthyS (m.picks u2)) = true) :
    try_advance_round_or_start nowT m =
      (if 3 ≤ m.draft_round + 1 then
        { m with draft_round := m.draft_round + 1, status := .in_progress,
                 started_at := some nowT, bet_deadline := some (nowT + 600) }
       else { m with draft_round := m.draft_round + 1 }) := by
  unfold try_advance_round_or_start
  simp only [hu1, hu2, if_pos hlt]
  rw [htrue]
  simp only [if_true]
  by_cases h3 : 3 ≤ m.draft_round + 1
  · rw [if_pos h3, if_pos ⟨h3, hst⟩]
  · rw [if_neg h3, if_neg (fun hc => h3 hc.1)]

/-- Evaluation of a successful `draft_pick` by the round-designated player
of team 1. -/
theorem draft_pick_success_t1 (nowT : ℤ) (db : DB) (mid : String) (m : Match)
    (u1 c1 : String) (hm : db.getMatch mid = some m) (hs : m.status = .draft)
    (hmem : u1 ∈ m.team1)
    (hidx : m.team1.indexOf u1 = m.draft_round)
    (hc : c1 ∈ db.cfg.active_champions)
    (hnp : pickedInTeam m.picks m.team1 c1 = false) :
    draft_pick nowT db mid u1 c1 =
      (db.setMatch (try_advance_round_or_start nowT
          { m with picks := fun x => if x = u1 then some c1 else m.picks x }),
       .ok ((try_advance_round_or_start nowT
          { m with picks := fun x => if x = u1 then some c1 else m.picks x }).draft_round,
            (try_advance_round_or_start nowT
          { m with picks := fun x => if x = u1 then some c1 else m.picks x }).status)) := by
  have hcontains : m.team1.contains u1 = true := by
    simpa using hmem
  have hros : rosterIdx m u1 = (m.draft_round : ℤ) := by
    unfold rosterIdx
    rw [if_pos hcontains, hidx]
  unfold draft_pick
  rw [hm]
  simp only [hs]
  rw [if_neg (by simp)]
  rw [if_neg (by simp [hmem])]
  rw [if_neg (by simp [hros])]
  rw [if_neg (by simp [hc])]
  rw [if_neg (by simp only [hcontains, if_pos, if_true, hnp]; simp)]

/-- Evaluation of a successful `draft_pick` by the round-designated player
of team 2 (who is on no seat of team 1). -/
theorem draft_pick_success_t2 (nowT : ℤ) (db : DB) (mid : String) (m : Match)
    (u2 c2 : String) (hm : db.getMatch mid = some m) (hs : m.status = .draft)
    (hnmem1 : u2 ∉ m.team1) (hmem : u2 ∈ m.team2)
    (hidx : m.team2.indexOf u2 = m.draft_round)
    (hc : c2 ∈ db.cfg.active_champions)
    (hnp : pickedInTeam m.picks m.team2 c2 = false) :
    draft_pick nowT db mid u2 c2 =
      (db.setMatch (try_advance_round_or_start nowT
          { m with picks := fun x => if x = u2 then some c2 else m.picks x }),
       .ok ((try_advance_round_or_start nowT
          { m with picks := fun x => if x = u2 then some c2 else m.picks x }).draft_round,
            (try_advance_round_or_start nowT
          { m with picks := fun x => if x = u2 then some c2 else m.picks x }).status)) := by
  have hcon1 : m.team1.contains u2 = false := by
    simpa using hnmem1
  have hcon2 : m.team2.contains u2 = true := by
    simpa using hmem
  have hros : rosterIdx m u2 = (m.draft_round : ℤ) := by
    unfold rosterIdx
    rw [if_neg (by simp [hnmem1]), if_pos hcon2, hidx]
  unfold draft_pick
  rw [hm]
  simp only [hs]
  rw [if_neg (by simp)]
  rw [if_neg (by simp [hmem])]
  rw [if_neg (by simp [hros])]
  rw [if_neg (by simp [hc])]
  rw [if_neg (by simp only [hcon1, if_neg, if_false, hnp]; simp [hnmem1, hnp])]

/-- Collapsing two consecutive row replacements of the same match id. -/
theorem setMatch_setMatch (db : DB) (ma mb : Match) (h : mb.id = ma.id) :
    (db.setMatch ma).setMatch mb = db.setMatch mb := by
  unfold DB.setMatch
  simp only [List.map_map]
  congr 1
  apply List.map_congr_left
  intro x _
  by_cases hx : x.id = ma.id
  · simp [Function.comp, hx, h]
  · simp [Function.comp, hx, h]

/-- C8: after every successful pick the round-advance check runs again, so
the round moves from r to r+1 exactly when both designated players of round
r hold a recorded pick: the first pick of a round leaves the round (and the
draft status) unchanged whichever side it comes from, the second advances
it, the two orders produce identical stores, and when the round counter
reaches 3 the match switches to in_progress with started_at the current
instant and bet_deadline ten minutes (600 seconds) later. -/
theorem c8_draft_advance_and_start (nowT1 nowT2 : ℤ) (db : DB) (mid : String)
    (m : Match) (u1 u2 c1 c2 : String)
    (hm : db.getMatch mid = some m) (hs : m.status = .draft)
    (hlt : m.draft_round < 3)
    (hu1 : m.team1.get? m.draft_round = some u1)
    (hu2 : m.team2.get? m.draft_round = some u2)
    (hn1 : m.team1.Nodup) (hn2 : m.team2.Nodup)
    (hdisj : ∀ x ∈ m.team1, x ∉ m.team2)
    (hne1 : u1 ≠ "") (hne2 : u2 ≠ "")
    (hp1 : m.picks u1 = none) (hp2 : m.picks u2 = none)
    (hc1 : c1 ∈ db.cfg.active_champions) (hc2 : c2 ∈ db.cfg.active_champions)
    (hcne1 : c1 ≠ "") (hcne2 : c2 ≠ "")
    (hnp1 : pickedInTeam m.picks m.team1 c1 = false)
    (hnp2 : pickedInTeam m.picks m.team2 c2 = false) :
    (draft_pick nowT1 db mid u1 c1).2 = .ok (m.draft_round, .draft)
    ∧ (draft_pick nowT1 db mid u2 c2).2 = .ok (m.draft_round, .draft)
    ∧ (draft_pick nowT2 (draft_pick nowT1 db mid u1 c1).1 mid u2 c2).2
        = .ok (m.draft_round + 1,
            if 3 ≤ m.draft_round + 1 then Status.in_progress else .draft)
    ∧ (draft_pick nowT2 (draft_pick nowT1 db mid u1 c1).1 mid u2 c2).1
        = (draft_pick nowT2 (draft_pick nowT1 db mid u2 c2).1 mid u1 c1).1
    ∧ (∀ m', (draft_pick nowT2 (draft_pick nowT1 db mid u1 c1).1 mid u2 c2).1.getMatch mid
          = some m' →
        m'.draft_round = m.draft_round + 1
        ∧ (3 ≤ m.draft_round + 1 →
            m'.status = .in_progress ∧ m'.started_at = some nowT2
            ∧ m'.bet_deadline = some (nowT2 + 600))
        ∧ (m.draft_round + 1 < 3 → m'.status = .draft)) := by
  have hid : m.id = mid := getMatch_id db mid m hm
  have mem1 : u1 ∈ m.team1 := mem_of_get? hu1
  have mem2 : u2 ∈ m.team2 := mem_of_get? hu2
  have hnm21 : u2 ∉ m.team1 := fun h => hdisj u2 h mem2
  have hneu : u1 ≠ u2 := fun h => hdisj u1 mem1 (by rw [h]; exact mem2)
  have idx1 : m.team1.indexOf u1 = m.draft_round := indexOf_of_get? hn1 hu1
  have idx2 : m.team2.indexOf u2 = m.draft_round := indexOf_of_get? hn2 hu2
  -- order A, first pick: u1
  have s1 := draft_pick_success_t1 nowT1 db mid m u1 c1 hm hs mem1 idx1 hc1 hnp1
  have eA0 : try_advance_round_or_start nowT1
      { m with picks := fun x => if x = u1 then some c1 else m.picks x }
      = { m with picks := fun x => if x = u1 then some c1 else m.picks x } :=
    try_advance_pending nowT1
      { m with picks := fun x => if x = u1 then some c1 else m.picks x }
      u1 u2 hlt hu1 hu2 (by simp [otruthyS, hp2, hneu.symm])
  rw [eA0] at s1
  -- order B, first pick: u2
  have s1' := draft_pick_success_t2 nowT1 db mid m u2 c2 hm hs hnm21 mem2 idx2 hc2 hnp2
  have eB0 : try_advance_round_or_start nowT1
      { m with picks := fun x => if x = u2 then some c2 else m.picks x }
      = { m with picks := fun x => if x = u2 then some c2 else m.picks x } :=
    try_advance_pending nowT1
      { m with picks := fun x => if x = u2 then some c2 else m.picks x }
      u1 u2 hlt hu1 hu2 (by simp [otruthyS, hp1, hneu])
  rw [eB0] at s1'
  -- order A, second pick: u2 on the updated store
  have hgmA : ((db.setMatch
      { m with picks := fun x => if x = u1 then some c1 else m.picks x }).getMatch mid)
      = some { m with picks := fun x => if x = u1 then some c1 else m.picks x } :=
    getMatch_setMatch_self db mid m _ hm hid
  have hnpA2 : pickedInTeam
      (fun x => if x = u1 then some c1 else m.picks x) m.team2 c2 = false := by
    rw [pickedInTeam_congr m.picks _ m.team2 c2
      (fun v hv => if_neg (fun h => hdisj u1 mem1 (by rw [← h]; exact hv)))]
    exact hnp2
  have s2 := draft_pick_success_t2 nowT2
    (db.setMatch { m with picks := fun x => if x = u1 then some c1 else m.picks x }) mid
    { m with picks := fun x => if x = u1 then some c1 else m.picks x } u2 c2
    hgmA hs hnm21 mem2 idx2 (by simpa using hc2) hnpA2
  have eAB : try_advance_round_or_start nowT2
      { m with picks := fun x =>
          if x = u2 then some c2 else if x = u1 then some c1 else m.picks x }
      = (if 3 ≤ m.draft_round + 1 then
          { m with
              picks := fun x =>
                if x = u2 then some c2 else if x = u1 then some c1 else m.picks x
              draft_round := m.draft_round + 1
              status := .in_progress
              started_at := some nowT2
              bet_deadline := some (nowT2 + 600) }
        else
          { m with
              picks := fun x =>
                if x = u2 then some c2 else if x = u1 then some c1 else m.picks x
              draft_round := m.draft_round + 1 }) :=
    try_advance_advance nowT2
      { m with picks := fun x =>
          if x = u2 then some c2 else if x = u1 then some c1 else m.picks x }
      u1 u2 hlt hs hu1 hu2
      (by simp [otruthyS, hneu, hneu.symm, hcne1, hcne2, hne1, hne2])
  rw [eAB] at s2
  -- order B, second pick: u1 on the updated store
  have hgmB : ((db.setMatch
      { m with picks := fun x => if x = u2 then some c2 else m.picks x }).getMatch mid)
      = some { m with picks := fun x => if x = u2 then some c2 else m.picks x } :=
    getMatch_setMatch_self db mid m _ hm hid
  have hnpB1 : pickedInTeam
      (fun x => if x = u2 then some c2 else m.picks x) m.team1 c1 = false := by
    rw [pickedInTeam_congr m.picks _ m.team1 c1
      (fun v hv => if_neg (fun h => hdisj v hv (by rw [h]; exact mem2)))]
    exact hnp1
  have s2' := draft_pick_success_t1 nowT2
    (db.setMatch { m with picks := fun x => if x = u2 then some c2 else m.picks x }) mid
    { m with picks := fun x => if x = u2 then some c2 else m.picks x } u1 c1
    hgmB hs mem1 idx1 (by simpa using hc1) hnpB1
  have eBA : try_advance_round_or_start nowT2
      { m with picks := fun x =>
          if x = u1 then some c1 else if x = u2 then some c2 else m.picks x }
      = (if 3 ≤ m.draft_round + 1 then
          { m with
              picks := fun x =>
                if x = u1 then some c1 else if x = u2 then some c2 else m.picks x
              draft_round := m.draft_round + 1
              status := .in_progress
              started_at := some nowT2
              bet_deadline := some (nowT2 + 600) }
        else
          { m with
              picks := fun x =>
                if x = u1 then some c1 else if x = u2 then some c2 else m.picks x
              draft_round := m.draft_round + 1 }) :=
    try_advance_advance nowT2
      { m with picks := fun x =>
          if x = u1 then some c1 else if x = u2 then some c2 else m.picks x }
      u1 u2 hlt hs hu1 hu2
      (by simp [otruthyS, hneu, hneu.symm, hcne1, hcne2, hne1, hne2])
  rw [eBA] at s2'
  -- the two final pick maps agree
  have hpickeq : (fun x =>
        if x = u2 then some c2 else if x = u1 then some c1 else m.picks x)
      = (fun x => if x = u1 then some c1 else if x = u2 then some c2 else m.picks x) := by
    funext x
    by_cases hx1 : x = u1
    · rw [if_neg (by rw [hx1]; exact hneu), if_pos hx1, if_pos hx1]
    · by_cases hx2 : x = u2
      · rw [if_pos hx2, if_neg hx1, if_pos hx2]
      · rw [if_neg hx2, if_neg hx1, if_neg hx1, if_neg hx2]
  refine ⟨?_, ?_, ?_, ?_, ?_⟩
  · rw [s1, hs]
  · rw [s1', hs]
  · rw [s1]
    simp only []
    rw [s2]
    by_cases h3 : 3 ≤ m.draft_round + 1
    · simp only [if_pos h3]
    · simp only [if_neg h3, hs]
  · rw [s1, s1']
    simp only []
    rw [s2, s2']
    simp only []
    by_cases h3 : 3 ≤ m.draft_round + 1
    · simp only [if_pos h3]
      rw [setMatch_setMatch _ _ _ (by rfl), setMatch_setMatch _ _ _ (by rfl), hpickeq]
    · simp only [if_neg h3]
      rw [setMatch_setMatch _ _ _ (by rfl), setMatch_setMatch _ _ _ (by rfl), hpickeq]
  · intro m' hm'
    rw [s1] at hm'
    simp only [] at hm'
    rw [s2] at hm'
    by_cases h3 : 3 ≤ m.draft_round + 1
    · simp only [if_pos h3] at hm'
      have := getMatch_setMatch_self
        (db.setMatch { m with picks := fun x => if x = u1 then some c1 else m.picks x })
        mid _
        { m with
            picks := fun x =>
              if x = u2 then some c2 else if x = u1 then some c1 else m.picks x
            draft_round := m.draft_round + 1
            status := .in_progress
            started_at := some nowT2
            bet_deadline := some (nowT2 + 600) }
        hgmA hid
      rw [this] at hm'
      cases hm'
      refine ⟨rfl, fun _ => ⟨rfl, rfl, rfl⟩, fun hcon => absurd h3 (Nat.not_le.mpr hcon)⟩
    · simp only [if_neg h3] at hm'
      have := getMatch_setMatch_self
        (db.setMatch { m with picks := fun x => if x = u1 then some c1 else m.picks x })
        mid _
        { m with
            picks := fun x =>
              if x = u2 then some c2 else if x = u1 then some c1 else m.picks x
            draft_round := m.draft_round + 1 }
        hgmA hid
      rw [this] at hm'
      cases hm'
      exact ⟨rfl, fun hc => absurd hc h3, fun _ => hs⟩

def mDraft : Match :=
  { id := "md", display_id := none, map := "Orman Night", status := .draft,
    started_at := none, bet_deadline := none, draft_round := 2, finished_at := none,
    team1 := ["a", "b", "c"], team2 := ["d", "e", "f"],
    picks := fun x =>
      if x = "a" then some "Ashka" else if x = "b" then some "Bakko"
      else if x = "d" then some "Croak" else if x = "e" then some "Ezmo" else none,
    winner_team := none, streaked_player_ids := [], t1_report := none,
    t2_report := none, t1_reporter := none, t2_reporter := none,
    result_deltas := ⟨[], []⟩ }

def dbDraft : DB :=
  { users := fun _ => none, queue := [], matchRows := [mDraft], bets := [],
    champStats := fun _ _ => ⟨0, 0, 0⟩, cfg := cfg0 }

theorem c8_witness :
    (mDraft.status = Status.draft ∧ mDraft.draft_round < 3
      ∧ mDraft.team1.get? mDraft.draft_round = some "c"
      ∧ mDraft.team2.get? mDraft.draft_round = some "f")
    ∧ (draft_pick 100 dbDraft "md" "c" "Freya").2 = .ok (2, .draft)
    ∧ (draft_pick 200 (draft_pick 100 dbDraft "md" "c" "Freya").1 "md" "f" "Iva").2
        = .ok (3, .in_progress) := by
  have h := c8_draft_advance_and_start 100 200 dbDraft "md" mDraft "c" "f" "Freya" "Iva"
    rfl rfl (by decide) rfl rfl (by decide) (by decide) (by decide) (by decide)
    (by decide) rfl rfl (by decide) (by decide) (by decide) (by decide) rfl rfl
  exact ⟨⟨rfl, by decide, rfl, rfl⟩, h.1, h.2.2.1⟩

/-! ### Frame lemmas for the settlement loops -/

/-- The store components never touched by the settlement loops. -/
def dbFrame (d : DB) : List Match × List String × List Bet × AdminConfig :=
  (d.matchRows, d.queue, d.bets, d.cfg)

theorem dbFrame_matchRows {d1 d2 : DB} (h : dbFrame d1 = dbFrame d2) :
    d1.matchRows = d2.matchRows := congrArg Prod.fst h

theorem dbFrame_queue {d1 d2 : DB} (h : dbFrame d1 = dbFrame d2) :
    d1.queue = d2.queue := congrArg (fun p => p.2.1) h

theorem dbFrame_bets {d1 d2 : DB} (h : dbFrame d1 = dbFrame d2) :
    d1.bets = d2.bets := congrArg (fun p => p.2.2.1) h

theorem dbFrame_cfg {d1 d2 : DB} (h : dbFrame d1 = dbFrame d2) :
    d1.cfg = d2.cfg := congrArg (fun p => p.2.2.2) h

theorem getMatch_eq_of_matchRows {d1 d2 : DB} (h : d1.matchRows = d2.matchRows)
    (mid : String) : d1.getMatch mid = d2.getMatch mid := by
  unfold DB.getMatch
  rw [h]

theorem winnerStep_frame (pw bonus : ℚ) (bc : List (String × ℤ))
    (picks : String → Option String) (st : FinSt) (uid : String) :
    dbFrame (winnerStep pw bonus bc picks st uid).db = dbFrame st.db := by
  unfold winnerStep
  cases st.db.users uid with
  | none => rfl
  | some u =>
    cases picks uid with
    | none => rfl
    | some champ =>
      by_cases hc : champ = ""
      · simp [hc, dbFrame]
      · simp [hc, dbFrame]

theorem loserStep_frame (pl : ℚ) (picks : String → Option String)
    (st : FinSt) (uid : String) :
    dbFrame (loserStep pl picks st uid).db = dbFrame st.db := by
  unfold loserStep
  cases st.db.users uid with
  | none => rfl
  | some u =>
    cases picks uid with
    | none => rfl
    | some champ =>
      by_cases hc : champ = ""
      · simp [hc, dbFrame]
      · simp [hc, dbFrame]

theorem betStep_frame (wt : ℤ) (st : FinSt) (b : Bet) :
    dbFrame (betStep wt st b).db = dbFrame st.db := by
  unfold betStep
  by_cases ht : b.team = wt
  · rw [if_pos ht]
    cases st.db.users b.user_id with
    | none => rfl
    | some u =>
      cases dget st.uds b.user_id with
      | none => rfl
      | some d => rfl
  · rw [if_neg ht]

theorem foldl_winnerStep_frame (pw bonus : ℚ) (bc : List (String × ℤ))
    (picks : String → Option String) (L : List String) (st : FinSt) :
    dbFrame ((L.foldl (winnerStep pw bonus bc picks) st).db) = dbFrame st.db := by
  induction L generalizing st with
  | nil => rfl
  | cons a t ih =>
    rw [List.foldl_cons]
    exact (ih (winnerStep pw bonus bc picks st a)).trans
      (winnerStep_frame pw bonus bc picks st a)

theorem foldl_loserStep_frame (pl : ℚ) (picks : String → Option String)
    (L : List String) (st : FinSt) :
    dbFrame ((L.foldl (loserStep pl picks) st).db) = dbFrame st.db := by
  induction L generalizing st with
  | nil => rfl
  | cons a t ih =>
    rw [List.foldl_cons]
    exact (ih (loserStep pl picks st a)).trans (loserStep_frame pl picks st a)

theorem foldl_betStep_frame (wt : ℤ) (L : List Bet) (st : FinSt) :
    dbFrame ((L.foldl (betStep wt) st).db) = dbFrame st.db := by
  induction L generalizing st with
  | nil => rfl
  | cons a t ih =>
    rw [List.foldl_cons]
    exact (ih (betStep wt st a)).trans (betStep_frame wt st a)

theorem finalizeSt_frame (db : DB) (m : Match) (wt : ℤ) :
    dbFrame (finalizeSt db m wt).db = dbFrame db := by
  unfold finalizeSt
  exact (foldl_betStep_frame _ _ _).trans
    ((foldl_loserStep_frame _ _ _ _).trans (foldl_winnerStep_frame _ _ _ _ _ _))

/-- Evaluation of `_apply_finalize_and_snapshot` on a found, not yet
finished match and a valid winner. -/
theorem apply_finalize_eq (nowT : ℤ) (db : DB) (mid : String) (wt : ℤ) (m : Match)
    (h1 : db.getMatch mid = some m) (h2 : m.status ≠ .finished)
    (h3 : wt = 1 ∨ wt = 2) :
    apply_finalize_and_snapshot nowT db mid wt =
      ((finalizeSt db m wt).db.setMatch
        { m with status := .finished, winner_team := some wt,
                 finished_at := some nowT,
                 result_deltas := ⟨(finalizeSt db m wt).uds, (finalizeSt db m wt).cds⟩ },
       .ok ()) := by
  unfold apply_finalize_and_snapshot
  rw [h1]
  simp only [if_neg h2]
  rcases h3 with h3 | h3 <;> subst h3 <;> simp

/-- A settlement on a found, unfinished match with a valid winner succeeds
and marks the match finished with that winner. -/
theorem apply_finalize_status (nowT : ℤ) (db : DB) (mid : String) (wt : ℤ) (m : Match)
    (h1 : db.getMatch mid = some m) (h2 : m.status ≠ .finished)
    (h3 : wt = 1 ∨ wt = 2) :
    (apply_finalize_and_snapshot nowT db mid wt).2 = .ok ()
    ∧ ∃ m', (apply_finalize_and_snapshot nowT db mid wt).1.getMatch mid = some m'
        ∧ m'.status = .finished ∧ m'.winner_team = some wt
        ∧ m'.finished_at = some nowT ∧ m'.team1 = m.team1 ∧ m'.team2 = m.team2 := by
  rw [apply_finalize_eq nowT db mid wt m h1 h2 h3]
  refine ⟨rfl, ?_⟩
  have hst : (finalizeSt db m wt).db.getMatch mid = some m := by
    rw [getMatch_eq_of_matchRows (dbFrame_matchRows (finalizeSt_frame db m wt))]
    exact h1
  refine ⟨_, getMatch_setMatch_self _ mid m _ hst (getMatch_id db mid m h1),
    rfl, rfl, rfl, rfl, rfl⟩

/-! ### Claim C5 : result-consensus protocol -/

theorem reportT1_eval (nowT : ℤ) (db : DB) (mid uid : String) (wt : ℤ)
    (m : Match) (hm : db.getMatch mid = some m) (hs : m.status = .in_progress)
    (hwt : wt = 1 ∨ wt = 2) (mem1 : uid ∈ m.team1) (nmem2 : uid ∉ m.team2) :
    match_finalize nowT db mid uid wt =
      (if otruthyZ (some wt) ∧ otruthyZ m.t2_report then
        if (some wt : Option ℤ) = m.t2_report then
          ((apply_finalize_and_snapshot nowT
              (db.setMatch { m with t1_report := some wt, t1_reporter := some uid })
              m.id ((some wt).getD 0)).1,
           (apply_finalize_and_snapshot nowT
              (db.setMatch { m with t1_report := some wt, t1_reporter := some uid })
              m.id ((some wt).getD 0)).2.map (fun _ => FinResp.settled))
        else
          (db.setMatch { m with t1_report := some wt, t1_reporter := some uid },
           .ok (.mismatch (some wt) m.t2_report (some uid) m.t2_reporter))
      else
        (db.setMatch { m with t1_report := some wt, t1_reporter := some uid },
         .ok (.pending (if ¬ otruthyZ (some wt) then "team1" else "team2")
           (some wt) m.t2_report))) := by
  have c2 : ¬ (wt ≠ 1 ∧ wt ≠ 2) := by rcases hwt with h | h <;> subst h <;> simp
  simp only [match_finalize, hm, hs, c2, decide_True, decide_False, if_true,
    if_false, ite_true, ite_false, not_true, not_false_iff]
  simp [mem1, nmem2, hs]

theorem reportT2_eval (nowT : ℤ) (db : DB) (mid uid : String) (wt : ℤ)
    (m : Match) (hm : db.getMatch mid = some m) (hs : m.status = .in_progress)
    (hwt : wt = 1 ∨ wt = 2) (nmem1 : uid ∉ m.team1) (mem2 : uid ∈ m.team2) :
    match_finalize nowT db mid uid wt =
      (if otruthyZ m.t1_report ∧ otruthyZ (some wt) then
        if m.t1_report = (some wt : Option ℤ) then
          ((apply_finalize_and_snapshot nowT
              (db.setMatch { m with t2_report := some wt, t2_reporter := some uid })
              m.id (m.t1_report.getD 0)).1,
           (apply_finalize_and_snapshot nowT
              (db.setMatch { m with t2_report := some wt, t2_reporter := some uid })
              m.id (m.t1_report.getD 0)).2.map (fun _ => FinResp.settled))
        else
          (db.setMatch { m with t2_report := some wt, t2_reporter := some uid },
           .ok (.mismatch m.t1_report (some wt) m.t1_reporter (some uid)))
      else
        (db.setMatch { m with t2_report := some wt, t2_reporter := some uid },
         .ok (.pending (if ¬ otruthyZ m.t1_report then "team1" else "team2")
           m.t1_report (some wt)))) := by
  have c2 : ¬ (wt ≠ 1 ∧ wt ≠ 2) := by rcases hwt with h | h <;> subst h <;> simp
  simp only [match_finalize, hm, hs, c2, decide_True, decide_False, if_true,
    if_false, ite_true, ite_false, not_true, not_false_iff]
  simp [mem2, nmem1, hs]

/-- C5: recording a participant's result report — once both sides' slots are
filled, equal claims run settlement and move the match to finished; unequal
claims answer a Conflict carrying both reports and both reporters while the
match stays in_progress with both slots kept; a single filled side answers
pending naming the side still outstanding. -/
theorem c5_report_consensus (nowT : ℤ) (db : DB) (mid uid : String) (wt : ℤ)
    (m : Match) (hm : db.getMatch mid = some m) (hs : m.status = .in_progress)
    (hwt : wt = 1 ∨ wt = 2) (hside : ¬ (uid ∈ m.team1 ∧ uid ∈ m.team2)) :
    (uid ∈ m.team1 →
      (m.t2_report = some wt →
        (match_finalize nowT db mid uid wt).2 = .ok .settled
        ∧ ∃ m', (match_finalize nowT db mid uid wt).1.getMatch mid = some m'
            ∧ m'.status = .finished ∧ m'.winner_team = some wt)
      ∧ (∀ w2, m.t2_report = some w2 → w2 ≠ 0 → w2 ≠ wt →
        match_finalize nowT db mid uid wt
          = (db.setMatch { m with t1_report := some wt, t1_reporter := some uid },
             .ok (.mismatch (some wt) (some w2) (some uid) m.t2_reporter))
        ∧ ∃ m', (match_finalize nowT db mid uid wt).1.getMatch mid = some m'
            ∧ m'.status = .in_progress ∧ m'.t1_report = some wt
            ∧ m'.t2_report = some w2)
      ∧ (otruthyZ m.t2_report = false →
        match_finalize nowT db mid uid wt
          = (db.setMatch { m with t1_report := some wt, t1_reporter := some uid },
             .ok (.pending "team2" (some wt) m.t2_report))))
    ∧ (uid ∈ m.team2 →
      (m.t1_report = some wt →
        (match_finalize nowT db mid uid wt).2 = .ok .settled
        ∧ ∃ m', (match_finalize nowT db mid uid wt).1.getMatch mid = some m'
            ∧ m'.status = .finished ∧ m'.winner_team = some wt)
      ∧ (∀ w1, m.t1_report = some w1 → w1 ≠ 0 → w1 ≠ wt →
        match_finalize nowT db mid uid wt
          = (db.setMatch { m with t2_report := some wt, t2_reporter := some uid },
             .ok (.mismatch (some w1) (some wt) m.t1_reporter (some uid)))
        ∧ ∃ m', (match_finalize nowT db mid uid wt).1.getMatch mid = some m'
            ∧ m'.status = .in_progress ∧ m'.t1_report = some w1
            ∧ m'.t2_report = some wt)
      ∧ (otruthyZ m.t1_report = false →
        match_finalize nowT db mid uid wt
          = (db.setMatch { m with t2_report := some wt, t2_reporter := some uid },
             .ok (.pending "team1" m.t1_report (some wt))))) := by
  have hid : m.id = mid := getMatch_id db mid m hm
  have hwt0 : wt ≠ 0 := by rcases hwt with h | h <;> subst h <;> decide
  have hotw : otruthyZ (some wt) = true := by simp [otruthyZ, hwt0]
  constructor
  · -- reporter on team 1
    intro mem1
    have nmem2 : uid ∉ m.team2 := fun h2 => hside ⟨mem1, h2⟩
    have hrec := reportT1_eval nowT db mid uid wt m hm hs hwt mem1 nmem2
    have hgm2 : (db.setMatch { m with t1_report := some wt, t1_reporter := some uid
        }).getMatch mid = some { m with t1_report := some wt, t1_reporter := some uid } :=
      getMatch_setMatch_self db mid m _ hm hid
    refine ⟨?_, ?_, ?_⟩
    · -- agreement
      intro hagree
      have := apply_finalize_status nowT
        (db.setMatch { m with t1_report := some wt, t1_reporter := some uid }) mid wt
        { m with t1_report := some wt, t1_reporter := some uid }
        hgm2 (by rw [hs]; simp) hwt
      obtain ⟨hok, m', hgm', hst', hw', _, _, _⟩ := this
      have happ : apply_finalize_and_snapshot nowT
          (db.setMatch { m with t1_report := some wt, t1_reporter := some uid })
          m.id ((some wt).getD 0)
          = apply_finalize_and_snapshot nowT
          (db.setMatch { m with t1_report := some wt, t1_reporter := some uid }) mid wt := by
        rw [hid]
        rfl
      rw [hrec]
      rw [if_pos (show otruthyZ (some wt) = true ∧ otruthyZ m.t2_report = true from
            ⟨hotw, by rw [hagree]; exact hotw⟩),
          if_pos hagree.symm, happ]
      constructor
      · rw [hok]
        rfl
      · exact ⟨m', hgm', hst', hw'⟩
    · -- mismatch
      intro w2 hw2 hw20 hw2ne
      have hotw2 : otruthyZ (some w2) = true := by simp [otruthyZ, hw20]
      have hne : ¬ ((some wt : Option ℤ) = m.t2_report) := by
        rw [hw2]
        intro hc
        exact hw2ne (Option.some.inj hc).symm
      have heval : match_finalize nowT db mid uid wt
          = (db.setMatch { m with t1_report := some wt, t1_reporter := some uid },
             .ok (.mismatch (some wt) (some w2) (some uid) m.t2_reporter)) := by
        rw [hrec, if_pos ⟨hotw, by rw [hw2]; exact hotw2⟩, if_neg hne, hw2]
      refine ⟨heval, ⟨{ m with t1_report := some wt, t1_reporter := some uid },
        ?_, hs, rfl, hw2⟩⟩
      rw [heval]
      exact hgm2
    · -- pending
      intro hempty
      rw [hrec]
      rw [if_neg (fun hc => by rw [hempty] at hc; exact absurd hc.2 (by decide))]
      rw [if_neg (by rw [hotw]; decide)]
  · -- reporter on team 2
    intro mem2
    have nmem1 : uid ∉ m.team1 := fun h1 => hside ⟨h1, mem2⟩
    have hrec := reportT2_eval nowT db mid uid wt m hm hs hwt nmem1 mem2
    have hgm2 : (db.setMatch { m with t2_report := some wt, t2_reporter := some uid
        }).getMatch mid = some { m with t2_report := some wt, t2_reporter := some uid } :=
      getMatch_setMatch_self db mid m _ hm hid
    refine ⟨?_, ?_, ?_⟩
    · -- agreement
      intro hagree
      have := apply_finalize_status nowT
        (db.setMatch { m with t2_report := some wt, t2_reporter := some uid }) mid wt
        { m with t2_report := some wt, t2_reporter := some uid }
        hgm2 (by rw [hs]; simp) hwt
      obtain ⟨hok, m', hgm', hst', hw', _, _, _⟩ := this
      have happ : apply_finalize_and_snapshot nowT
          (db.setMatch { m with t2_report := some wt, t2_reporter := some uid })
          m.id (m.t1_report.getD 0)
          = apply_finalize_and_snapshot nowT
          (db.setMatch { m with t2_report := some wt, t2_reporter := some uid }) mid wt := by
        rw [hid, hagree]
        rfl
      rw [hrec]
      rw [if_pos (show otruthyZ m.t1_report = true ∧ otruthyZ (some wt) = true from
            ⟨by rw [hagree]; exact hotw, hotw⟩),
          if_pos hagree, happ]
      constructor
      · rw [hok]
        rfl
      · exact ⟨m', hgm', hst', hw'⟩
    · -- mismatch
      intro w1 hw1 hw10 hw1ne
      have hotw1 : otruthyZ (some w1) = true := by simp [otruthyZ, hw10]
      have hne : ¬ (m.t1_report = (some wt : Option ℤ)) := by
        rw [hw1]
        intro hc
        exact hw1ne (Option.some.inj hc)
      have heval : match_finalize nowT db mid uid wt
          = (db.setMatch { m with t2_report := some wt, t2_reporter := some uid },
             .ok (.mismatch (some w1) (some wt) m.t1_reporter (some uid))) := by
        rw [hrec, if_pos ⟨by rw [hw1]; exact hotw1, hotw⟩, if_neg hne, hw1]
      refine ⟨heval, ⟨{ m with t2_report := some wt, t2_reporter := some uid },
        ?_, hs, hw1, rfl⟩⟩
      rw [heval]
      exact hgm2
    · -- pending
      intro hempty
      rw [hrec]
      rw [if_neg (fun hc => by rw [hempty] at hc; exact absurd hc.1 (by decide))]
      rw [if_pos (by rw [hempty]; decide)]


def mProg : Match :=
  { id := "mp", display_id := none, map := "Orman Night", status := .in_progress,
    started_at := some 0, bet_deadline := some 600, draft_round := 3,
    finished_at := none, team1 := ["a", "b", "c"], team2 := ["d", "e", "f"],
    picks := fun _ => none, winner_team := none, streaked_player_ids := [],
    t1_report := none, t2_report := none, t1_reporter := none, t2_reporter := none,
    result_deltas := ⟨[], []⟩ }

def dbProg : DB :=
  { users := fun _ => none, queue := [], matchRows := [mProg], bets := [],
    champStats := fun _ _ => ⟨0, 0, 0⟩, cfg := cfg0 }

theorem c5_witness :
    (dbProg.getMatch "mp" = some mProg ∧ mProg.status = Status.in_progress
      ∧ "a" ∈ mProg.team1 ∧ otruthyZ mProg.t2_report = false)
    ∧ match_finalize 0 dbProg "mp" "a" 1
        = (dbProg.setMatch { mProg with t1_report := some 1, t1_reporter := some "a" },
           .ok (.pending "team2" (some 1) none)) := by
  have h := c5_report_consensus 0 dbProg "mp" "a" 1 mProg rfl rfl (Or.inl rfl) (by decide)
  exact ⟨⟨rfl, rfl, by decide, rfl⟩, (h.1 (by decide)).2.2 rfl⟩

/-! ### Claim C2 : match creation -/

theorem is_user_in_active_match_congr {d1 d2 : DB} (h : d1.matchRows = d2.matchRows)
    (uid : String) : is_user_in_active_match d1 uid = is_user_in_active_match d2 uid := by
  unfold is_user_in_active_match
  rw [h]

theorem create_match_internal_success (db : DB) (user_ids shuffled : List String)
    (nid did mp : String) (hlen : user_ids.length = 6)
    (hact : ∀ x ∈ user_ids, is_user_in_active_match db x = false) :
    create_match_internal db user_ids shuffled nid did mp
      = ({ db with matchRows := db.matchRows ++ [freshMatch db shuffled nid did mp] },
         .ok (freshMatch db shuffled nid did mp)) := by
  unfold create_match_internal
  rw [if_neg (by rw [hlen]; simp)]
  have hfind : user_ids.find? (fun uid => is_user_in_active_match db uid) = none :=
    List.find?_eq_none.mpr (fun x hx => by simp [hact x hx])
  rw [hfind]

def dbEmpty : DB :=
  { users := fun _ => none, queue := [], matchRows := [], bets := [],
    champStats := fun _ _ => ⟨0, 0, 0⟩, cfg := cfg0 }

/-- C2 counterexample: the source performs no distinctness check — a list of
six identities containing a duplicate is accepted by `create_match_internal`
(no ValidationError), and the resulting team1 is not a set of three distinct
players. -/
theorem c2_counterexample :
    ¬ (["a", "a", "b", "c", "d", "e"] : List String).Nodup
    ∧ (create_match_internal dbEmpty ["a", "a", "b", "c", "d", "e"]
        ["a", "a", "b", "c", "d", "e"] "nid" "disp" "Orman Night").2.isOk = true
    ∧ ((create_match_internal dbEmpty ["a", "a", "b", "c", "d", "e"]
        ["a", "a", "b", "c", "d", "e"] "nid" "disp" "Orman Night").2.toOption.map
          Match.team1) = some ["a", "a", "b"] := by
  refine ⟨by decide, rfl, rfl⟩

/-- C2 (amended): match creation fails with need_6_players unless exactly six
identities are given (their distinctness is NOT validated), fails with
user_in_other_match when one of them sits in a non-terminal match, and on
success splits the shuffled ids into team1 = first three and team2 = last
three, which are a permutation of the input; whenever the input happens to be
six distinct ids, the two teams are disjoint sets of size 3. -/
theorem c2_create_match (db : DB) (user_ids shuffled : List String)
    (nid did mp : String) :
    (user_ids.length ≠ 6 →
      create_match_internal db user_ids shuffled nid did mp
        = (db, .error ⟨400, "need_6_players"⟩))
    ∧ (user_ids.length = 6 →
      ∀ uid, user_ids.find? (fun u => is_user_in_active_match db u) = some uid →
      create_match_internal db user_ids shuffled nid did mp
        = (db, .error ⟨400, "user_in_other_match:" ++ uid⟩))
    ∧ (user_ids.length = 6 →
       (∀ x ∈ user_ids, is_user_in_active_match db x = false) →
       shuffled.Perm user_ids →
      (create_match_internal db user_ids shuffled nid did mp).2
          = .ok (freshMatch db shuffled nid did mp)
      ∧ (freshMatch db shuffled nid did mp).team1 = shuffled.take 3
      ∧ (freshMatch db shuffled nid did mp).team2 = shuffled.drop 3
      ∧ (freshMatch db shuffled nid did mp).team1.length = 3
      ∧ (freshMatch db shuffled nid did mp).team2.length = 3
      ∧ ((freshMatch db shuffled nid did mp).team1
          ++ (freshMatch db shuffled nid did mp).team2).Perm user_ids
      ∧ (user_ids.Nodup →
          (freshMatch db shuffled nid did mp).team1.Nodup
          ∧ (freshMatch db shuffled nid did mp).team2.Nodup
          ∧ ∀ x ∈ (freshMatch db shuffled nid did mp).team1,
              x ∉ (freshMatch db shuffled nid did mp).team2)) := by
  refine ⟨?_, ?_, ?_⟩
  · intro hne
    unfold create_match_internal
    rw [if_pos hne]
  · intro hlen uid hfind
    unfold create_match_internal
    rw [if_neg (by rw [hlen]; simp)]
    rw [hfind]
  · intro hlen hact hperm
    have hslen : shuffled.length = 6 := by rw [hperm.length_eq, hlen]
    have happend : shuffled.take 3 ++ shuffled.drop 3 = shuffled :=
      List.take_append_drop 3 shuffled
    refine ⟨?_, rfl, rfl, ?_, ?_, ?_, ?_⟩
    · rw [create_match_internal_success db user_ids shuffled nid did mp hlen hact]
    · simp [freshMatch, hslen]
    · simp [freshMatch, hslen]
    · show (shuffled.take 3 ++ shuffled.drop 3).Perm user_ids
      rw [happend]
      exact hperm
    · intro hnd
      have hsnd : shuffled.Nodup := (hperm.nodup_iff).mpr hnd
      have : (shuffled.take 3 ++ shuffled.drop 3).Nodup := by
        rw [happend]
        exact hsnd
      rw [List.nodup_append] at this
      exact ⟨this.1, this.2.1, fun x hx hx2 => this.2.2 hx hx2⟩

theorem c2_witness :
    ((["a", "b", "c", "d", "e", "f"] : List String).length = 6
      ∧ (["b", "a", "c", "f", "e", "d"] : List String).Perm
          ["a", "b", "c", "d", "e", "f"])
    ∧ (create_match_internal dbEmpty ["a", "b", "c", "d", "e", "f"]
        ["b", "a", "c", "f", "e", "d"] "n2" "d2" "Orman Night").2
        = .ok (freshMatch dbEmpty ["b", "a", "c", "f", "e", "d"] "n2" "d2" "Orman Night")
    ∧ (freshMatch dbEmpty ["b", "a", "c", "f", "e", "d"] "n2" "d2"
        "Orman Night").team1 = ["b", "a", "c"] := by
  have h := (c2_create_match dbEmpty ["a", "b", "c", "d", "e", "f"]
    ["b", "a", "c", "f", "e", "d"] "n2" "d2" "Orman Night").2.2
    (by decide) (fun x hx => rfl) (by decide)
  exact ⟨⟨by decide, by decide⟩, h.1, rfl⟩

/-! ### Claim C9 : queue entry and match formation -/

/-- C9: on a store satisfying the queue invariants (at most five tickets, no
ticketed player inside a non-terminal match — both preserved by every enter),
`enter` fails exactly when the player already holds a ticket or is in a
non-terminal match (with the matching error and an unchanged store), appends
a ticket otherwise, and forms a match exactly when the ticket count reaches
six — consuming precisely the six earliest-joined tickets. -/
theorem c9_queue_enter (db : DB) (uid : String) (sh : List String → List String)
    (nid did mp : String)
    (hex : (db.users uid).isSome = true)
    (hlen : db.queue.length ≤ 5)
    (hq : ∀ v ∈ db.queue, is_user_in_active_match db v = false)
    (hsh : ∀ l, (sh l).Perm l)
    (hfresh : db.getMatch nid = none) :
    (((queue_enter db uid sh nid did mp).2.isOk = false)
        ↔ (uid ∈ db.queue ∨ is_user_in_active_match db uid = true))
    ∧ (uid ∈ db.queue →
        queue_enter db uid sh nid did mp = (db, .error ⟨400, "already_in_queue"⟩))
    ∧ (uid ∉ db.queue → is_user_in_active_match db uid = true →
        queue_enter db uid sh nid did mp = (db, .error ⟨400, "already_in_match"⟩))
    ∧ (uid ∉ db.queue → is_user_in_active_match db uid = false →
        db.queue.length < 5 →
        queue_enter db uid sh nid did mp
          = ({ db with queue := db.queue ++ [uid] }, .ok none))
    ∧ (uid ∉ db.queue → is_user_in_active_match db uid = false →
        db.queue.length = 5 →
        (queue_enter db uid sh nid did mp).2 = .ok (some nid)
        ∧ (queue_enter db uid sh nid did mp).1.queue = []
        ∧ ∃ m, (queue_enter db uid sh nid did mp).1.getMatch nid = some m
            ∧ m.status = .draft
            ∧ (m.team1 ++ m.team2).Perm (db.queue ++ [uid])
            ∧ m.team1.length = 3 ∧ m.team2.length = 3)
    ∧ ((queue_enter db uid sh nid did mp).1.queue.length ≤ 5
        ∧ ∀ v ∈ (queue_enter db uid sh nid did mp).1.queue,
            is_user_in_active_match (queue_enter db uid sh nid did mp).1 v = false) := by
  obtain ⟨u0, hu0⟩ := Option.isSome_iff_exists.mp hex
  by_cases hinq : uid ∈ db.queue
  · have heval : queue_enter db uid sh nid did mp
        = (db, .error ⟨400, "already_in_queue"⟩) := by
      unfold queue_enter validate_not_in_match_or_queue
      rw [hu0]
      rw [if_pos (by simpa using hinq)]
    refine ⟨?_, fun _ => heval, ?_, ?_, ?_, ?_⟩
    · rw [heval]
      simp [hinq, Except.isOk, Except.toBool]
    · intro hc
      exact absurd hinq hc
    · intro hc
      exact absurd hinq hc
    · intro hc
      exact absurd hinq hc
    · rw [heval]
      exact ⟨hlen, hq⟩
  · by_cases hact : is_user_in_active_match db uid = true
    · have heval : queue_enter db uid sh nid did mp
          = (db, .error ⟨400, "already_in_match"⟩) := by
        unfold queue_enter validate_not_in_match_or_queue
        rw [hu0]
        rw [if_neg (by simpa using hinq), if_pos hact]
      refine ⟨?_, fun hc => absurd hc hinq, fun _ _ => heval, ?_, ?_, ?_⟩
      · rw [heval]
        simp [hact, Except.isOk, Except.toBool]
      · intro _ hc
        exact absurd hact (by rw [hc]; decide)
      · intro _ hc
        exact absurd hact (by rw [hc]; decide)
      · rw [heval]
        exact ⟨hlen, hq⟩
    · have hactf : is_user_in_active_match db uid = false := by
        cases hv : is_user_in_active_match db uid
        · rfl
        · exact absurd hv hact
      have hvalid : validate_not_in_match_or_queue db uid = none := by
        unfold validate_not_in_match_or_queue
        rw [if_neg (by simpa using hinq), if_neg (by rw [hactf]; decide)]
      by_cases h5 : db.queue.length = 5
      · -- the sixth ticket: the whole queue is consumed
        have hq1len : (db.queue ++ [uid]).length = 6 := by
          rw [List.length_append, h5]
          rfl
        have htake : (db.queue ++ [uid]).take 6 = db.queue ++ [uid] :=
          List.take_of_length_le (by rw [hq1len])
        have hdrop : (db.queue ++ [uid]).drop 6 = [] :=
          List.drop_eq_nil_of_le (by rw [hq1len])
        have hdb2 : ({ db with queue := (db.queue ++ [uid]).drop 6 } : DB).matchRows
            = db.matchRows := rfl
        have hact6 : ∀ x ∈ db.queue ++ [uid],
            is_user_in_active_match
              ({ db with queue := (db.queue ++ [uid]).drop 6 } : DB) x = false := by
          intro x hx
          rw [is_user_in_active_match_congr hdb2 x]
          rcases List.mem_append.mp hx with hx | hx
          · exact hq x hx
          · rw [List.mem_singleton.mp hx]
            exact hactf
        have heval : queue_enter db uid sh nid did mp
            = ({ ({ db with queue := (db.queue ++ [uid]).drop 6 } : DB) with
                  matchRows := db.matchRows
                    ++ [freshMatch { db with queue := (db.queue ++ [uid]).drop 6 }
                        (sh ((db.queue ++ [uid]).take 6)) nid did mp] },
               .ok (some (freshMatch { db with queue := (db.queue ++ [uid]).drop 6 }
                        (sh ((db.queue ++ [uid]).take 6)) nid did mp).id)) := by
          simp only [queue_enter, hu0, hvalid]
          rw [if_pos (le_of_eq hq1len.symm)]
          rw [create_match_internal_success _ _ _ _ _ _
            (by rw [htake]; exact hq1len) (by rw [htake]; exact hact6)]
        have hteams : ((freshMatch { db with queue := (db.queue ++ [uid]).drop 6 }
            (sh ((db.queue ++ [uid]).take 6)) nid did mp).team1
            ++ (freshMatch { db with queue := (db.queue ++ [uid]).drop 6 }
            (sh ((db.queue ++ [uid]).take 6)) nid did mp).team2).Perm
            (db.queue ++ [uid]) := by
          show ((sh ((db.queue ++ [uid]).take 6)).take 3
              ++ (sh ((db.queue ++ [uid]).take 6)).drop 3).Perm (db.queue ++ [uid])
          rw [List.take_append_drop]
          rw [htake]
          exact hsh (db.queue ++ [uid])
        have hshlen : (sh ((db.queue ++ [uid]).take 6)).length = 6 := by
          rw [(hsh _).length_eq, htake, hq1len]
        refine ⟨?_, fun hc => absurd hc hinq, fun _ hc => absurd hc (by rw [hactf]; decide),
          fun _ _ hc => absurd h5 (Nat.ne_of_lt hc), fun _ _ _ => ?_, ?_⟩
        · rw [heval]
          simp [hinq, hactf, Except.isOk, Except.toBool]
        · refine ⟨by rw [heval]; rfl, by rw [heval]; exact hdrop, ?_⟩
          refine ⟨freshMatch { db with queue := (db.queue ++ [uid]).drop 6 }
            (sh ((db.queue ++ [uid]).take 6)) nid did mp, ?_, rfl, hteams, ?_, ?_⟩
          · rw [heval]
            show (List.find? _ (db.matchRows ++ [_])) = _
            rw [List.find?_append]
            unfold DB.getMatch at hfresh
            rw [hfresh]
            simp [freshMatch]
          · simp [freshMatch, hshlen]
          · simp [freshMatch, hshlen]
        · constructor
          · rw [heval, hdrop]
            simp
          · intro v hv
            rw [heval, hdrop] at hv
            simp at hv
      · -- still below six tickets
        have hlt : db.queue.length < 5 := Nat.lt_of_le_of_ne hlen h5
        have heval : queue_enter db uid sh nid did mp
            = ({ db with queue := db.queue ++ [uid] }, .ok none) := by
          unfold queue_enter
          rw [hu0, hvalid]
          rw [if_neg (by simp only [List.length_append, List.length_singleton]; omega)]
        refine ⟨?_, fun hc => absurd hc hinq,
          fun _ hc => absurd hact (by rw [hc]; decide),
          fun _ _ _ => heval, fun _ _ hc => absurd hc h5, ?_⟩
        · rw [heval]
          simp [hinq, hactf, Except.isOk, Except.toBool]
        · constructor
          · rw [heval]
            show (db.queue ++ [uid]).length ≤ 5
            simp only [List.length_append, List.length_singleton]
            omega
          · intro v hv
            rw [heval] at hv ⊢
            have hmr : ({ db with queue := db.queue ++ [uid] } : DB).matchRows
                = db.matchRows := rfl
            rw [is_user_in_active_match_congr hmr v]
            simp only [] at hv
            rcases List.mem_append.mp hv with hv | hv
            · exact hq v hv
            · rw [List.mem_singleton.mp hv]
              exact hactf

def usersQ : String → Option UserStats := fun x =>
  if x ∈ (["q1", "q2", "q3", "q4", "q5", "q6"] : List String)
  then some ⟨0, 0, 0, 0, 0, 0, 0, 0⟩ else none

def dbQ : DB :=
  { users := usersQ, queue := ["q1", "q2", "q3", "q4", "q5"], matchRows := [],
    bets := [], champStats := fun _ _ => ⟨0, 0, 0⟩, cfg := cfg0 }

theorem c9_witness :
    ((dbQ.users "q6").isSome = true ∧ dbQ.queue.length = 5 ∧ "q6" ∉ dbQ.queue)
    ∧ (queue_enter dbQ "q6" (fun l => l) "nm" "dd" "Orman Night").2 = .ok (some "nm")
    ∧ (queue_enter dbQ "q6" (fun l => l) "nm" "dd" "Orman Night").1.queue = [] := by
  have h := c9_queue_enter dbQ "q6" (fun l => l) "nm" "dd" "Orman Night" rfl
    (by decide) (fun v _ => rfl) (fun l => List.Perm.refl l) rfl
  have h4 := h.2.2.2.2.1 (by decide) rfl rfl
  exact ⟨⟨rfl, rfl, by decide⟩, h4.1, h4.2.1⟩

/-! ### Claim C1 : admin override -/

def usersC1 : String → Option UserStats := fun x =>
  if x ∈ (["a", "b", "c", "d", "e", "f"] : List String)
  then some ⟨0, 0, 0, 0, 0, 0, 0, 0⟩ else none

def mDraftC1 : Match :=
  { id := "m1", display_id := some "2024-01-01 10:00:00 + 2", map := "Orman Night",
    status := .draft, started_at := none, bet_deadline := none, draft_round := 0,
    finished_at := none, team1 := ["a", "b", "c"], team2 := ["d", "e", "f"],
    picks := fun _ => none, winner_team := none, streaked_player_ids := [],
    t1_report := none, t2_report := none, t1_reporter := none, t2_reporter := none,
    result_deltas := ⟨[], []⟩ }

def dbC1 : DB :=
  { users := usersC1, queue := [], matchRows := [mDraftC1], bets := [],
    champStats := fun _ _ => ⟨0, 0, 0⟩, cfg := cfg0 }

/-- C1 counterexample: overriding a match that is still in draft does NOT
fail with InvalidState — the request succeeds, the match jumps straight to
finished, and player stats change (player "a" gains a win). -/
theorem c1_counterexample :
    mDraftC1.status ≠ Status.finished
    ∧ (admin_match_override true 0 dbC1 "m1" 1).2 = .ok ()
    ∧ (((admin_match_override true 0 dbC1 "m1" 1).1.getMatch "m1").map Match.status)
        = some Status.finished
    ∧ (((admin_match_override true 0 dbC1 "m1" 1).1.users "a").map UserStats.wins)
        = some 1
    ∧ ((dbC1.users "a").map UserStats.wins) = some 0 := by
  refine ⟨by decide, rfl, by decide, by decide, by decide⟩

/-- C1 (amended): admin override never fails with InvalidState.  When the
match is finished it reverts the snapshot, transiently reopens the row to
in_progress and re-runs settlement with the admin winner; when the match is
draft, in_progress or canceled the revert is skipped and the request flows
directly into settlement, which (for a valid winner) marks the match
finished.  Only an unknown key is rejected (NotFound). -/
theorem c1_override_behaviour (nowT : ℤ) (db : DB) (key : String) (wt : ℤ) :
    (find_match_by_key db key = none →
      admin_match_override true nowT db key wt = (db, .error ⟨404, "match_not_found"⟩))
    ∧ (∀ m, find_match_by_key db key = some m → m.status ≠ .finished →
        admin_match_override true nowT db key wt
          = apply_finalize_and_snapshot nowT db m.id wt)
    ∧ (∀ m, find_match_by_key db key = some m → m.status ≠ .finished →
        db.getMatch m.id = some m → (wt = 1 ∨ wt = 2) →
        (admin_match_override true nowT db key wt).2 = .ok ()
        ∧ ∃ m', (admin_match_override true nowT db key wt).1.getMatch m.id = some m'
            ∧ m'.status = .finished ∧ m'.winner_team = some wt)
    ∧ (∀ m, find_match_by_key db key = some m → m.status = .finished →
        admin_match_override true nowT db key wt
          = apply_finalize_and_snapshot nowT
              ((revert_snapshot db m).1.setMatch
                { (revert_snapshot db m).2 with status := .in_progress }) m.id wt) := by
  refine ⟨?_, ?_, ?_, ?_⟩
  · intro hnone
    unfold admin_match_override
    rw [hnone]
    rfl
  · intro m hfind hst
    unfold admin_match_override
    rw [hfind]
    simp [hst]
  · intro m hfind hst hgm hwt
    have heval : admin_match_override true nowT db key wt
        = apply_finalize_and_snapshot nowT db m.id wt := by
      unfold admin_match_override
      rw [hfind]
      simp [hst]
    rw [heval]
    obtain ⟨hok, m', hm', hstat, hwin, _, _, _⟩ :=
      apply_finalize_status nowT db m.id wt m hgm hst hwt
    exact ⟨hok, m', hm', hstat, hwin⟩
  · intro m hfind hst
    unfold admin_match_override
    rw [hfind]
    simp [hst]

theorem c1_witness :
    (find_match_by_key dbC1 "m1" = some mDraftC1
      ∧ mDraftC1.status ≠ Status.finished ∧ dbC1.getMatch "m1" = some mDraftC1)
    ∧ admin_match_override true 0 dbC1 "m1" 2
        = apply_finalize_and_snapshot 0 dbC1 mDraftC1.id 2 := by
  have h := (c1_override_behaviour 0 dbC1 "m1" 2).2.1 mDraftC1 rfl (by decide)
  exact ⟨⟨rfl, by decide, rfl⟩, h⟩

/-! ### Pointwise characterization of the settlement loops -/

/-- The per-user effect of one winners-loop iteration: wins, played and
streak up by one, max_streak refreshed, the full bonus on top of the win
points, and the broken-streak credit. -/
def winUpd (pw bonus : ℚ) (inc : ℤ) (u : UserStats) : UserStats :=
  { u with wins := u.wins + 1, played := u.played + 1,
           current_streak := u.current_streak + 1,
           max_streak := max u.max_streak (u.current_streak + 1),
           score := u.score + (pw + bonus),
           streaks_broken := u.streaks_broken + inc }

/-- The snapshot entry recorded for a winner. -/
def winDelta (pw bonus : ℚ) (u : UserStats) : UserDelta :=
  ⟨pw + bonus, 1, 0, 1, u.current_streak, u.current_streak + 1, 0⟩

/-- The per-user effect of one losers-loop iteration. -/
def loseUpd (pl : ℚ) (u : UserStats) : UserStats :=
  { u with losses := u.losses + 1, played := u.played + 1,
           score := u.score + pl, current_streak := 0 }

/-- The snapshot entry recorded for a loser. -/
def loseDelta (pl : ℚ) (u : UserStats) : UserDelta :=
  ⟨pl, 0, 1, 1, u.current_streak, 0, 0⟩

/-- Bumping the correct-bets counter (the bets loop applies it once per
correct bet). -/
def addCB (k : ℤ) (u : UserStats) : UserStats :=
  { u with correct_bets := u.correct_bets + k }

/-- Number of correct bets by `x` among the given bets. -/
def betCount (wt : ℤ) (B : List Bet) (x : String) : ℤ :=
  ((B.filter (fun b => decide (b.team = wt ∧ b.user_id = x))).length : ℤ)

/-- Number of losers whose pre-settlement streak reaches 3. -/
def qualifyingCount (db : DB) (losers : List String) : ℤ :=
  ((losers.filter (fun uid => qualifies_streaked db uid)).length : ℤ)

/-- The effect of the whole bets loop on one snapshot-dict slot. -/
def betsDictSpec (u? : Option UserStats) (d? : Option UserDelta) (k : ℤ) :
    Option UserDelta :=
  match u? with
  | none => d?
  | some u =>
    if k = 0 then d?
    else
      match d? with
      | some d => some { d with correct_bets_delta := d.correct_bets_delta + k }
      | none => some ⟨0, 0, 0, 0, u.current_streak, u.current_streak, k⟩

theorem winnerStep_users (pw bonus : ℚ) (bc : List (String × ℤ))
    (picks : String → Option String) (st : FinSt) (uid x : String) :
    (winnerStep pw bonus bc picks st uid).db.users x
      = if x = uid then
          (st.db.users uid).map (winUpd pw bonus ((dget bc uid).getD 0))
        else st.db.users x := by
  unfold winnerStep
  cases h : st.db.users uid with
  | none =>
    by_cases hx : x = uid
    · subst hx
      rw [if_pos rfl, h]
      rfl
    · rw [if_neg hx]
  | some u =>
    by_cases hx : x = uid
    · subst hx
      rw [if_pos rfl]
      cases hp : picks x with
      | none => simp [winUpd, DB.updUser, h]
      | some champ =>
        by_cases hc : champ = ""
        · simp [hc, winUpd, DB.updUser, h]
        · simp [hc, winUpd, DB.updUser, h]
    · rw [if_neg hx]
      cases hp : picks uid with
      | none => simp [DB.updUser, hx]
      | some champ =>
        by_cases hc : champ = ""
        · simp [hc, DB.updUser, hx]
        · simp [hc, DB.updUser, hx]

theorem winnerStep_uds (pw bonus : ℚ) (bc : List (String × ℤ))
    (picks : String → Option String) (st : FinSt) (uid x : String) :
    dget (winnerStep pw bonus bc picks st uid).uds x
      = if x = uid then
          (match st.db.users uid with
           | some u => some (winDelta pw bonus u)
           | none => dget st.uds uid)
        else dget st.uds x := by
  unfold winnerStep
  cases h : st.db.users uid with
  | none =>
    by_cases hx : x = uid
    · subst hx
      rw [if_pos rfl]
    · rw [if_neg hx]
  | some u =>
    by_cases hx : x = uid
    · subst hx
      rw [if_pos rfl]
      cases hp : picks x with
      | none => simp [winDelta, dget_dset_self]
      | some champ =>
        by_cases hc : champ = ""
        · simp [hc, winDelta, dget_dset_self]
        · simp [hc, winDelta, dget_dset_self]
    · rw [if_neg hx]
      cases hp : picks uid with
      | none => simp [dget_dset_ne _ _ _ _ hx]
      | some champ =>
        by_cases hc : champ = ""
        · simp [hc, dget_dset_ne _ _ _ _ hx]
        · simp [hc, dget_dset_ne _ _ _ _ hx]

theorem winnerStep_uds_keys (pw bonus : ℚ) (bc : List (String × ℤ))
    (picks : String → Option String) (st : FinSt) (uid : String)
    (h : (st.uds.map Prod.fst).Nodup) :
    ((winnerStep pw bonus bc picks st uid).uds.map Prod.fst).Nodup := by
  unfold winnerStep
  cases hu : st.db.users uid with
  | none => exact h
  | some u =>
    cases hp : picks uid with
    | none => exact dset_keys_nodup _ _ _ h
    | some champ =>
      by_cases hc : champ = ""
      · simp only [hc]
        simp
        exact dset_keys_nodup _ _ _ h
      · simp only [hc]
        simp [hc]
        exact dset_keys_nodup _ _ _ h

theorem loserStep_users (pl : ℚ) (picks : String → Option String)
    (st : FinSt) (uid x : String) :
    (loserStep pl picks st uid).db.users x
      = if x = uid then (st.db.users uid).map (loseUpd pl)
        else st.db.users x := by
  unfold loserStep
  cases h : st.db.users uid with
  | none =>
    by_cases hx : x = uid
    · subst hx
      rw [if_pos rfl, h]
      rfl
    · rw [if_neg hx]
  | some u =>
    by_cases hx : x = uid
    · subst hx
      rw [if_pos rfl]
      cases hp : picks x with
      | none => simp [loseUpd, DB.updUser, h]
      | some champ =>
        by_cases hc : champ = ""
        · simp [hc, loseUpd, DB.updUser, h]
        · simp [hc, loseUpd, DB.updUser, h]
    · rw [if_neg hx]
      cases hp : picks uid with
      | none => simp [DB.updUser, hx]
      | some champ =>
        by_cases hc : champ = ""
        · simp [hc, DB.updUser, hx]
        · simp [hc, DB.updUser, hx]

theorem loserStep_uds (pl : ℚ) (picks : String → Option String)
    (st : FinSt) (uid x : String) :
    dget (loserStep pl picks st uid).uds x
      = if x = uid then
          (match st.db.users uid with
           | some u => some (loseDelta pl u)
           | none => dget st.uds uid)
        else dget st.uds x := by
  unfold loserStep
  cases h : st.db.users uid with
  | none =>
    by_cases hx : x = uid
    · subst hx
      rw [if_pos rfl]
    · rw [if_neg hx]
  | some u =>
    by_cases hx : x = uid
    · subst hx
      rw [if_pos rfl]
      cases hp : picks x with
      | none => simp [loseDelta, dget_dset_self]
      | some champ =>
        by_cases hc : champ = ""
        · simp [hc, loseDelta, dget_dset_self]
        · simp [hc, loseDelta, dget_dset_self]
    · rw [if_neg hx]
      cases hp : picks uid with
      | none => simp [dget_dset_ne _ _ _ _ hx]
      | some champ =>
        by_cases hc : champ = ""
        · simp [hc, dget_dset_ne _ _ _ _ hx]
        · simp [hc, dget_dset_ne _ _ _ _ hx]

theorem loserStep_uds_keys (pl : ℚ) (picks : String → Option String)
    (st : FinSt) (uid : String) (h : (st.uds.map Prod.fst).Nodup) :
    ((loserStep pl picks st uid).uds.map Prod.fst).Nodup := by
  unfold loserStep
  cases hu : st.db.users uid with
  | none => exact h
  | some u =>
    cases hp : picks uid with
    | none => exact dset_keys_nodup _ _ _ h
    | some champ =>
      by_cases hc : champ = ""
      · simp only [hc]
        simp
        exact dset_keys_nodup _ _ _ h
      · simp only [hc]
        simp [hc]
        exact dset_keys_nodup _ _ _ h

theorem betStep_users (wt : ℤ) (st : FinSt) (b : Bet) (x : String) :
    (betStep wt st b).db.users x
      = if b.team = wt ∧ b.user_id = x then
          (st.db.users x).map (addCB 1)
        else st.db.users x := by
  unfold betStep
  by_cases ht : b.team = wt
  · rw [if_pos ht]
    cases hu : st.db.users b.user_id with
    | none =>
      by_cases hx : b.user_id = x
      · rw [if_pos ⟨ht, hx⟩]
        rw [← hx, hu]
        rfl
      · rw [if_neg (fun hc => hx hc.2)]
    | some u =>
      by_cases hx : b.user_id = x
      · subst hx
        rw [if_pos ⟨ht, rfl⟩, hu]
        cases hd : dget st.uds b.user_id with
        | none => simp [addCB, DB.updUser, hu]
        | some d => simp [addCB, DB.updUser, hu]
      · rw [if_neg (fun hc => hx hc.2)]
        cases hd : dget st.uds b.user_id with
        | none =>
          simp [DB.updUser]
          exact fun hxe => absurd hxe.symm hx
        | some d =>
          simp [DB.updUser]
          exact fun hxe => absurd hxe.symm hx
  · rw [if_neg ht, if_neg (fun hc => ht hc.1)]

theorem betStep_uds (wt : ℤ) (st : FinSt) (b : Bet) (x : String) :
    dget (betStep wt st b).uds x
      = if b.team = wt ∧ b.user_id = x then
          (match st.db.users x with
           | none => dget st.uds x
           | some u =>
             match dget st.uds x with
             | some d => some { d with correct_bets_delta := d.correct_bets_delta + 1 }
             | none => some ⟨0, 0, 0, 0, u.current_streak, u.current_streak, 1⟩)
        else dget st.uds x := by
  unfold betStep
  by_cases ht : b.team = wt
  · rw [if_pos ht]
    cases hu : st.db.users b.user_id with
    | none =>
      by_cases hx : b.user_id = x
      · rw [if_pos ⟨ht, hx⟩, ← hx, hu]
      · rw [if_neg (fun hc => hx hc.2)]
    | some u =>
      by_cases hx : b.user_id = x
      · subst hx
        rw [if_pos ⟨ht, rfl⟩, hu]
        cases hd : dget st.uds b.user_id with
        | none => simp [hd, dget_dset_self]
        | some d => simp [hd, dget_dset_self]
      · rw [if_neg (fun hc => hx hc.2)]
        cases hd : dget st.uds b.user_id with
        | none => simp [dget_dset_ne _ _ _ _ (fun hc => hx hc.symm)]
        | some d => simp [dget_dset_ne _ _ _ _ (fun hc => hx hc.symm)]
  · rw [if_neg ht, if_neg (fun hc => ht hc.1)]

theorem betStep_uds_keys (wt : ℤ) (st : FinSt) (b : Bet)
    (h : (st.uds.map Prod.fst).Nodup) :
    ((betStep wt st b).uds.map Prod.fst).Nodup := by
  unfold betStep
  by_cases ht : b.team = wt
  · rw [if_pos ht]
    cases hu : st.db.users b.user_id with
    | none => exact h
    | some u =>
      cases hd : dget st.uds b.user_id with
      | none => exact dset_keys_nodup _ _ _ h
      | some d => exact dset_keys_nodup _ _ _ h
  · rw [if_neg ht]
    exact h

/-! ### Fold-level characterization of the settlement loops -/

theorem wfold_users (pw bonus : ℚ) (bc : List (String × ℤ))
    (picks : String → Option String) (W : List String) (hnd : W.Nodup)
    (st : FinSt) (x : String) :
    (W.foldl (winnerStep pw bonus bc picks) st).db.users x
      = if x ∈ W then
          (st.db.users x).map (winUpd pw bonus ((dget bc x).getD 0))
        else st.db.users x := by
  induction W generalizing st with
  | nil => simp
  | cons w ws ih =>
    have hw : w ∉ ws := (List.nodup_cons.mp hnd).1
    have hnd2 : ws.Nodup := (List.nodup_cons.mp hnd).2
    rw [List.foldl_cons, ih hnd2]
    by_cases hx : x ∈ ws
    · rw [if_pos hx, if_pos (List.mem_cons_of_mem w hx)]
      have hxw : ¬ x = w := fun h => hw (h ▸ hx)
      rw [winnerStep_users, if_neg hxw]
    · rw [if_neg hx]
      by_cases hxw : x = w
      · subst hxw
        rw [if_pos (List.mem_cons_self x ws)]
        rw [winnerStep_users, if_pos rfl]
      · rw [if_neg (by simp [List.mem_cons, hxw, hx])]
        rw [winnerStep_users, if_neg hxw]

theorem wfold_uds (pw bonus : ℚ) (bc : List (String × ℤ))
    (picks : String → Option String) (W : List String) (hnd : W.Nodup)
    (st : FinSt) (x : String) :
    dget (W.foldl (winnerStep pw bonus bc picks) st).uds x
      = if x ∈ W then
          (match st.db.users x with
           | some u => some (winDelta pw bonus u)
           | none => dget st.uds x)
        else dget st.uds x := by
  induction W generalizing st with
  | nil => simp
  | cons w ws ih =>
    have hw : w ∉ ws := (List.nodup_cons.mp hnd).1
    have hnd2 : ws.Nodup := (List.nodup_cons.mp hnd).2
    rw [List.foldl_cons, ih hnd2]
    by_cases hx : x ∈ ws
    · rw [if_pos hx, if_pos (List.mem_cons_of_mem w hx)]
      have hxw : ¬ x = w := fun h => hw (h ▸ hx)
      rw [winnerStep_users, if_neg hxw, winnerStep_uds, if_neg hxw]
    · rw [if_neg hx]
      by_cases hxw : x = w
      · subst hxw
        rw [if_pos (List.mem_cons_self x ws)]
        rw [winnerStep_uds, if_pos rfl]
      · rw [if_neg (by simp [List.mem_cons, hxw, hx])]
        rw [winnerStep_uds, if_neg hxw]

theorem wfold_uds_keys (pw bonus : ℚ) (bc : List (String × ℤ))
    (picks : String → Option String) (W : List String) (st : FinSt)
    (h : (st.uds.map Prod.fst).Nodup) :
    ((W.foldl (winnerStep pw bonus bc picks) st).uds.map Prod.fst).Nodup := by
  induction W generalizing st with
  | nil => exact h
  | cons w ws ih =>
    rw [List.foldl_cons]
    exact ih _ (winnerStep_uds_keys pw bonus bc picks st w h)

theorem lfold_users (pl : ℚ) (picks : String → Option String)
    (L : List String) (hnd : L.Nodup) (st : FinSt) (x : String) :
    (L.foldl (loserStep pl picks) st).db.users x
      = if x ∈ L then (st.db.users x).map (loseUpd pl) else st.db.users x := by
  induction L generalizing st with
  | nil => simp
  | cons w ws ih =>
    have hw : w ∉ ws := (List.nodup_cons.mp hnd).1
    have hnd2 : ws.Nodup := (List.nodup_cons.mp hnd).2
    rw [List.foldl_cons, ih hnd2]
    by_cases hx : x ∈ ws
    · rw [if_pos hx, if_pos (List.mem_cons_of_mem w hx)]
      have hxw : ¬ x = w := fun h => hw (h ▸ hx)
      rw [loserStep_users, if_neg hxw]
    · rw [if_neg hx]
      by_cases hxw : x = w
      · subst hxw
        rw [if_pos (List.mem_cons_self x ws)]
        rw [loserStep_users, if_pos rfl]
      · rw [if_neg (by simp [List.mem_cons, hxw, hx])]
        rw [loserStep_users, if_neg hxw]

theorem lfold_uds (pl : ℚ) (picks : String → Option String)
    (L : List String) (hnd : L.Nodup) (st : FinSt) (x : String) :
    dget (L.foldl (loserStep pl picks) st).uds x
      = if x ∈ L then
          (match st.db.users x with
           | some u => some (loseDelta pl u)
           | none => dget st.uds x)
        else dget st.uds x := by
  induction L generalizing st with
  | nil => simp
  | cons w ws ih =>
    have hw : w ∉ ws := (List.nodup_cons.mp hnd).1
    have hnd2 : ws.Nodup := (List.nodup_cons.mp hnd).2
    rw [List.foldl_cons, ih hnd2]
    by_cases hx : x ∈ ws
    · rw [if_pos hx, if_pos (List.mem_cons_of_mem w hx)]
      have hxw : ¬ x = w := fun h => hw (h ▸ hx)
      rw [loserStep_users, if_neg hxw, loserStep_uds, if_neg hxw]
    · rw [if_neg hx]
      by_cases hxw : x = w
      · subst hxw
        rw [if_pos (List.mem_cons_self x ws)]
        rw [loserStep_uds, if_pos rfl]
      · rw [if_neg (by simp [List.mem_cons, hxw, hx])]
        rw [loserStep_uds, if_neg hxw]

theorem lfold_uds_keys (pl : ℚ) (picks : String → Option String)
    (L : List String) (st : FinSt) (h : (st.uds.map Prod.fst).Nodup) :
    ((L.foldl (loserStep pl picks) st).uds.map Prod.fst).Nodup := by
  induction L generalizing st with
  | nil => exact h
  | cons w ws ih =>
    rw [List.foldl_cons]
    exact ih _ (loserStep_uds_keys pl picks st w h)

theorem betCount_nil (wt : ℤ) (x : String) : betCount wt [] x = 0 := rfl

theorem betCount_cons (wt : ℤ) (b : Bet) (B : List Bet) (x : String) :
    betCount wt (b :: B) x
      = (if b.team = wt ∧ b.user_id = x then 1 else 0) + betCount wt B x := by
  unfold betCount
  by_cases h : b.team = wt ∧ b.user_id = x
  · rw [List.filter_cons_of_pos (by simpa using h), if_pos h]
    simp [Nat.add_comm]
  · rw [List.filter_cons_of_neg (by simpa using h), if_neg h]
    simp

theorem betCount_nonneg (wt : ℤ) (B : List Bet) (x : String) :
    0 ≤ betCount wt B x := Int.natCast_nonneg _

theorem addCB_zero (u : UserStats) : addCB 0 u = u := by
  simp [addCB]

theorem addCB_comp (j k : ℤ) (u : UserStats) : addCB k (addCB j u) = addCB (j + k) u := by
  simp [addCB, add_assoc]

theorem bfold_users (wt : ℤ) (B : List Bet) (st : FinSt) (x : String) :
    (B.foldl (betStep wt) st).db.users x
      = (st.db.users x).map (addCB (betCount wt B x)) := by
  induction B generalizing st with
  | nil =>
    rw [List.foldl_nil, betCount_nil]
    cases st.db.users x with
    | none => rfl
    | some u => simp [addCB_zero]
  | cons b B ih =>
    rw [List.foldl_cons, ih, betStep_users, betCount_cons]
    by_cases h : b.team = wt ∧ b.user_id = x
    · rw [if_pos h, if_pos h]
      cases st.db.users x with
      | none => rfl
      | some u => simp [addCB_comp, add_comm]
    · rw [if_neg h, if_neg h, zero_add]

theorem bfold_uds (wt : ℤ) (B : List Bet) (st : FinSt) (x : String) :
    dget (B.foldl (betStep wt) st).uds x
      = betsDictSpec (st.db.users x) (dget st.uds x) (betCount wt B x) := by
  induction B generalizing st with
  | nil =>
    rw [List.foldl_nil, betCount_nil]
    cases st.db.users x with
    | none => rfl
    | some u => simp [betsDictSpec]
  | cons b B ih =>
    rw [List.foldl_cons, ih, betStep_users, betStep_uds, betCount_cons]
    by_cases h : b.team = wt ∧ b.user_id = x
    · rw [if_pos h, if_pos h, if_pos h]
      cases hu : st.db.users x with
      | none => rfl
      | some u =>
        have hk : (0:ℤ) ≤ betCount wt B x := betCount_nonneg wt B x
        have h1k : ¬ (1 + betCount wt B x = 0) := by omega
        have h1k2 : ¬ (betCount wt B x + 1 = 0) := by omega
        cases hd : dget st.uds x with
        | none =>
          by_cases hz : betCount wt B x = 0
          · simp [betsDictSpec, addCB, hz, h1k, h1k2]
          · simp [betsDictSpec, addCB, hz, h1k, h1k2, add_comm]
        | some d =>
          by_cases hz : betCount wt B x = 0
          · simp [betsDictSpec, addCB, hz, h1k, h1k2]
          · simp [betsDictSpec, addCB, hz, h1k, h1k2, add_assoc]
    · rw [if_neg h, if_neg h, if_neg h, zero_add]

theorem bfold_uds_keys (wt : ℤ) (B : List Bet) (st : FinSt)
    (h : (st.uds.map Prod.fst).Nodup) :
    ((B.foldl (betStep wt) st).uds.map Prod.fst).Nodup := by
  induction B generalizing st with
  | nil => exact h
  | cons b B ih =>
    rw [List.foldl_cons]
    exact ih _ (betStep_uds_keys wt st b h)

/-! ### The broken-streak counter dict in closed form -/

theorem bcInit_dget (W : List String) (d : List (String × ℤ)) (x : String) :
    dget (W.foldl (fun d uid => dset d uid (0 : ℤ)) d) x
      = if x ∈ W then some 0 else dget d x := by
  induction W generalizing d with
  | nil => simp
  | cons w ws ih =>
    rw [List.foldl_cons, ih]
    by_cases hx : x ∈ ws
    · rw [if_pos hx, if_pos (List.mem_cons_of_mem w hx)]
    · rw [if_neg hx]
      by_cases hxw : x = w
      · subst hxw
        rw [if_pos (List.mem_cons_self x ws), dget_dset_self]
      · rw [if_neg (by simp [List.mem_cons, hxw, hx]),
            dget_dset_ne _ _ _ _ (fun h => hxw h)]

theorem bcInc_dget (W : List String) (hnd : W.Nodup) (d : List (String × ℤ))
    (x : String) :
    dget (W.foldl (fun d2 w => dset d2 w ((dget d2 w).getD 0 + 1)) d) x
      = if x ∈ W then some ((dget d x).getD 0 + 1) else dget d x := by
  induction W generalizing d with
  | nil => simp
  | cons w ws ih =>
    have hw : w ∉ ws := (List.nodup_cons.mp hnd).1
    have hnd2 : ws.Nodup := (List.nodup_cons.mp hnd).2
    rw [List.foldl_cons, ih hnd2]
    by_cases hx : x ∈ ws
    · rw [if_pos hx, if_pos (List.mem_cons_of_mem w hx)]
      have hxw : ¬ x = w := fun h => hw (h ▸ hx)
      rw [dget_dset_ne _ _ _ _ hxw]
    · rw [if_neg hx]
      by_cases hxw : x = w
      · subst hxw
        rw [if_pos (List.mem_cons_self x ws), dget_dset_self]
      · rw [if_neg (by simp [List.mem_cons, hxw, hx]),
            dget_dset_ne _ _ _ _ hxw]

theorem qualifyingCount_nil (db : DB) : qualifyingCount db [] = 0 := rfl

theorem qualifyingCount_cons (db : DB) (l : String) (ls : List String) :
    qualifyingCount db (l :: ls)
      = (if qualifies_streaked db l then 1 else 0) + qualifyingCount db ls := by
  unfold qualifyingCount
  by_cases h : qualifies_streaked db l
  · rw [List.filter_cons_of_pos (by simpa using h), if_pos h]
    simp [List.length_cons]
    omega
  · rw [List.filter_cons_of_neg (by simpa using h), if_neg h]
    simp

theorem bcLoop_dget (db : DB) (W : List String) (hnd : W.Nodup)
    (L : List String) (d : List (String × ℤ)) (x : String) (hx : x ∈ W) :
    (dget (L.foldl (fun d uid =>
        if qualifies_streaked db uid then
          W.foldl (fun d2 w => dset d2 w ((dget d2 w).getD 0 + 1)) d
        else d) d) x).getD 0
      = (dget d x).getD 0 + qualifyingCount db L := by
  induction L generalizing d with
  | nil => simp [qualifyingCount_nil]
  | cons l ls ih =>
    rw [List.foldl_cons, qualifyingCount_cons]
    by_cases hq : qualifies_streaked db l
    · rw [if_pos hq, if_pos hq, ih]
      rw [bcInc_dget W hnd d x, if_pos hx]
      simp
      omega
    · rw [if_neg hq, if_neg hq, ih]
      omega

theorem bcDict_dget (db : DB) (W L : List String) (hnd : W.Nodup)
    (x : String) (hx : x ∈ W) :
    (dget (bcDict db W L) x).getD 0 = qualifyingCount db L := by
  unfold bcDict
  rw [bcLoop_dget db W hnd L _ x hx, bcInit_dget, if_pos hx]
  simp

/-! ### The whole settlement in closed form -/

/-- Closed form of the store contents after the winners and losers loops
(proved equal to the fold in `finalizeSt_users`); the subsequent bets loop
only adds `correct_bets`. -/
def settledUsers (db : DB) (m : Match) (wt : ℤ) (x : String) : Option UserStats :=
  if x ∈ losersOf m wt then (db.users x).map (loseUpd db.cfg.points_loss)
  else if x ∈ winnersOf m wt then
    (db.users x).map (winUpd db.cfg.points_win
      (compute_streak_bonus_per_winner db (losersOf m wt))
      ((dget (bcDict db (winnersOf m wt) (losersOf m wt)) x).getD 0))
  else db.users x

/-- Closed form of the per-user snapshot dict after the winners and losers
loops (proved equal to the fold in `finalizeSt_uds`). -/
def settledDelta (db : DB) (m : Match) (wt : ℤ) (x : String) : Option UserDelta :=
  if x ∈ losersOf m wt then (db.users x).map (loseDelta db.cfg.points_loss)
  else if x ∈ winnersOf m wt then
    (db.users x).map (winDelta db.cfg.points_win
      (compute_streak_bonus_per_winner db (losersOf m wt)))
  else none

theorem finalizeSt_users (db : DB) (m : Match) (wt : ℤ)
    (hW : (winnersOf m wt).Nodup) (hL : (losersOf m wt).Nodup)
    (hdisj : ∀ y, y ∈ winnersOf m wt → y ∉ losersOf m wt) (x : String) :
    (finalizeSt db m wt).db.users x
      = (settledUsers db m wt x).map (addCB (betCount wt (mbetsOf db m) x)) := by
  simp only [finalizeSt, settledUsers]
  rw [bfold_users, lfold_users _ _ _ hL, wfold_users _ _ _ _ _ hW]
  by_cases hxl : x ∈ losersOf m wt
  · rw [if_pos hxl, if_pos hxl]
    have hxw : x ∉ winnersOf m wt := fun h => hdisj x h hxl
    rw [if_neg hxw]
  · rw [if_neg hxl, if_neg hxl]

theorem finalizeSt_uds (db : DB) (m : Match) (wt : ℤ)
    (hW : (winnersOf m wt).Nodup) (hL : (losersOf m wt).Nodup)
    (hdisj : ∀ y, y ∈ winnersOf m wt → y ∉ losersOf m wt) (x : String) :
    dget (finalizeSt db m wt).uds x
      = betsDictSpec (settledUsers db m wt x) (settledDelta db m wt x)
          (betCount wt (mbetsOf db m) x) := by
  simp only [finalizeSt, settledUsers, settledDelta]
  rw [bfold_uds, lfold_uds _ _ _ hL, lfold_users _ _ _ hL,
      wfold_uds _ _ _ _ _ hW, wfold_users _ _ _ _ _ hW]
  by_cases hxl : x ∈ losersOf m wt
  · have hxw : x ∉ winnersOf m wt := fun h => hdisj x h hxl
    simp only [if_pos hxl, if_neg hxw]
    cases db.users x <;> rfl
  · by_cases hxw : x ∈ winnersOf m wt
    · simp only [if_neg hxl, if_pos hxw]
      cases db.users x <;> rfl
    · simp only [if_neg hxl, if_neg hxw]
      rfl

theorem finalizeSt_uds_keys (db : DB) (m : Match) (wt : ℤ) :
    ((finalizeSt db m wt).uds.map Prod.fst).Nodup := by
  simp only [finalizeSt]
  exact bfold_uds_keys _ _ _ (lfold_uds_keys _ _ _ _ (wfold_uds_keys _ _ _ _ _ _ List.nodup_nil))

/-! ### The streak bonus as a sum -/

theorem bonusFor_eq_sum_aux (s : ℤ) (table : List (ℤ × ℚ)) (a : ℚ) :
    table.foldl (fun acc p => if p.1 ≤ s then acc + p.2 else acc) a
      = a + ((table.filter (fun q => decide (q.1 ≤ s))).map Prod.snd).sum := by
  induction table generalizing a with
  | nil => simp
  | cons p t ih =>
    rw [List.foldl_cons]
    by_cases h : p.1 ≤ s
    · rw [if_pos h, ih, List.filter_cons_of_pos (by simpa using h)]
      simp [add_assoc]
    · rw [if_neg h, ih, List.filter_cons_of_neg (by simpa using h)]

theorem bonusFor_eq_sum (table : List (ℤ × ℚ)) (s : ℤ) :
    bonusFor table s
      = ((table.filter (fun q => decide (q.1 ≤ s))).map Prod.snd).sum := by
  unfold bonusFor
  rw [bonusFor_eq_sum_aux]
  simp

theorem compute_bonus_eq_sum_aux (db : DB) (L : List String) (a : ℚ) :
    L.foldl (fun total uid =>
      match db.users uid with
      | none => total
      | some u => total + bonusFor db.cfg.streak_bonus u.current_streak) a
      = a + (L.map (fun uid =>
          match db.users uid with
          | none => (0 : ℚ)
          | some u => bonusFor db.cfg.streak_bonus u.current_streak)).sum := by
  induction L generalizing a with
  | nil => simp
  | cons l ls ih =>
    rw [List.foldl_cons, ih]
    cases h : db.users l with
    | none => simp [h]
    | some u => simp [h, add_assoc]

theorem compute_streak_bonus_eq_sum (db : DB) (L : List String) :
    compute_streak_bonus_per_winner db L
      = (L.map (fun uid =>
          match db.users uid with
          | none => (0 : ℚ)
          | some u =>
            ((db.cfg.streak_bonus.filter
              (fun q => decide (q.1 ≤ u.current_streak))).map Prod.snd).sum)).sum := by
  unfold compute_streak_bonus_per_winner
  rw [compute_bonus_eq_sum_aux]
  simp only [zero_add, bonusFor_eq_sum]

/-- **C3.**  At settlement the streak bonus is computed once as the sum, over
all losers (a loser whose streak is below every threshold contributes
nothing), of the bonuses of all thresholds that loser's pre-settlement
streak satisfies; that total is added in full — not divided — to each
winner's score on top of `points_win`, and each winner's `streaks_broken`
grows by the number of losers whose pre-settlement streak reached 3. -/
theorem c3_streak_bonus (nowT : ℤ) (db : DB) (mid : String) (wt : ℤ) (m : Match)
    (h1 : db.getMatch mid = some m) (h2 : m.status ≠ .finished)
    (h3 : wt = 1 ∨ wt = 2)
    (hW : (winnersOf m wt).Nodup) (hL : (losersOf m wt).Nodup)
    (hdisj : ∀ y, y ∈ winnersOf m wt → y ∉ losersOf m wt)
    (x : String) (hx : x ∈ winnersOf m wt) (u : UserStats)
    (hu : db.users x = some u) :
    ∃ u', (apply_finalize_and_snapshot nowT db mid wt).1.users x = some u'
      ∧ u'.score = u.score + (db.cfg.points_win
          + ((losersOf m wt).map (fun uid =>
              match db.users uid with
              | none => (0 : ℚ)
              | some v => ((db.cfg.streak_bonus.filter
                  (fun q => decide (q.1 ≤ v.current_streak))).map Prod.snd).sum)).sum)
      ∧ u'.streaks_broken = u.streaks_broken
          + (((losersOf m wt).filter (fun uid => qualifies_streaked db uid)).length : ℤ)
      ∧ u'.wins = u.wins + 1 ∧ u'.played = u.played + 1 := by
  have hxl : x ∉ losersOf m wt := hdisj x hx
  have hkey : (apply_finalize_and_snapshot nowT db mid wt).1.users x
      = (finalizeSt db m wt).db.users x := by
    rw [apply_finalize_eq nowT db mid wt m h1 h2 h3]
    rfl
  rw [hkey, finalizeSt_users db m wt hW hL hdisj x]
  simp only [settledUsers, if_neg hxl, if_pos hx, hu]
  refine ⟨_, rfl, ?_, ?_, ?_, ?_⟩
  · simp only [Option.map_some, addCB, winUpd]
    rw [compute_streak_bonus_eq_sum]
  · simp only [Option.map_some, addCB, winUpd]
    rw [bcDict_dget db (winnersOf m wt) (losersOf m wt) hW x hx]
    rfl
  · simp [addCB, winUpd]
  · simp [addCB, winUpd]

/-- Fixture for the scoring example of the spec: `points_win = 1`,
`points_loss = 0`, bonus table `{3: 0.25, 6: 0.5, 9: 1.0}`. -/
def cfgC3 : AdminConfig :=
  { points_win := 1, points_loss := 0,
    streak_bonus := [(3, 1/4), (6, 1/2), (9, 1)],
    active_maps := ["map1"], active_champions := ["cA", "cB"] }

/-- Users for the C3 fixture: winner `w1` has 2 broken streaks on record,
loser `l1` carries a current streak of 6, the other losers sit at 1. -/
def usersC3 : String → Option UserStats := fun x =>
  if x = "w1" then some ⟨10, 0, 0, 0, 0, 0, 2, 0⟩
  else if x = "w2" ∨ x = "w3" then some ⟨0, 0, 0, 0, 0, 0, 0, 0⟩
  else if x = "l1" then some ⟨0, 0, 0, 0, 6, 6, 0, 0⟩
  else if x = "l2" ∨ x = "l3" then some ⟨0, 0, 0, 0, 1, 1, 0, 0⟩
  else none

/-- An in-progress match between `w1 w2 w3` and `l1 l2 l3`. -/
def mC3 : Match :=
  { id := "m3", display_id := some "M3", map := "map1", status := .in_progress,
    started_at := some 0, bet_deadline := some 600, draft_round := 3,
    finished_at := none, team1 := ["w1", "w2", "w3"], team2 := ["l1", "l2", "l3"],
    picks := fun _ => none, winner_team := none, streaked_player_ids := ["l1"],
    t1_report := none, t2_report := none, t1_reporter := none, t2_reporter := none,
    result_deltas := ⟨[], []⟩ }

def dbC3 : DB :=
  { users := usersC3, queue := [], matchRows := [mC3], bets := [],
    champStats := fun _ _ => ⟨0, 0, 0⟩, cfg := cfgC3 }

theorem c3_witness :
    ∃ u', (apply_finalize_and_snapshot 0 dbC3 "m3" 1).1.users "w1" = some u'
      ∧ u'.score = 10 + (1 + 3/4) ∧ u'.streaks_broken = 2 + 1
      ∧ u'.wins = 0 + 1 ∧ u'.played = 0 + 1 := by
  obtain ⟨u', he, hs, hb, hw, hp⟩ :=
    c3_streak_bonus 0 dbC3 "m3" 1 mC3
      (by simp [DB.getMatch, dbC3, List.find?, mC3])
      (by decide) (Or.inl rfl) (by decide) (by decide)
      (by
        intro y hy hy2
        simp [winnersOf, losersOf, mC3] at hy hy2
        rcases hy with rfl | rfl | rfl <;> simp at hy2)
      "w1" (by decide) ⟨10, 0, 0, 0, 0, 0, 2, 0⟩
      (by simp [dbC3, usersC3])
  have hl1 : usersC3 "l1" = some ⟨0, 0, 0, 0, 6, 6, 0, 0⟩ := rfl
  have hl2 : usersC3 "l2" = some ⟨0, 0, 0, 0, 1, 1, 0, 0⟩ := rfl
  have hl3 : usersC3 "l3" = some ⟨0, 0, 0, 0, 1, 1, 0, 0⟩ := rfl
  refine ⟨u', he, ?_, ?_, hw, hp⟩
  · rw [hs]
    norm_num [losersOf, mC3, dbC3, cfgC3, hl1, hl2, hl3, List.filter_cons, List.filter_nil,
      List.sum_cons, List.sum_nil]
  · rw [hb]
    norm_num [losersOf, mC3, dbC3, qualifies_streaked, hl1, hl2, hl3, List.filter_cons,
      List.filter_nil]


/-! ### The revert loops, pointwise -/

theorem revUser_streaks_broken (d : UserDelta) (u : UserStats) :
    (revUser d u).streaks_broken = u.streaks_broken := by
  unfold revUser
  by_cases h : d.correct_bets_delta ≠ 0
  · rw [if_pos h]
  · rw [if_neg h]

theorem rfold_streaks_broken (L : List (String × UserDelta)) (db : DB) (x : String) :
    Option.map UserStats.streaks_broken
        ((L.foldl (fun d p => d.updUser p.1 (revUser p.2)) db).users x)
      = Option.map UserStats.streaks_broken (db.users x) := by
  induction L generalizing db with
  | nil => rfl
  | cons p L ih =>
    rw [List.foldl_cons, ih]
    by_cases hx : x = p.1
    · rw [hx, updUser_users_self]
      cases db.users p.1 with
      | none => rfl
      | some u => simp [revUser_streaks_broken]
    · rw [updUser_users_ne _ _ _ _ hx]

theorem rfold_users (L : List (String × UserDelta)) (hnd : (L.map Prod.fst).Nodup)
    (db : DB) (x : String) :
    (L.foldl (fun d p => d.updUser p.1 (revUser p.2)) db).users x
      = match dget L x with
        | some dl => (db.users x).map (revUser dl)
        | none => db.users x := by
  induction L generalizing db with
  | nil => rfl
  | cons p L ih =>
    have hnd1 := hnd
    rw [List.map_cons, List.nodup_cons] at hnd1
    obtain ⟨hk, hnd2⟩ := hnd1
    rw [List.foldl_cons, ih hnd2]
    by_cases hx : x = p.1
    · have hdg : dget L x = none := by
        rw [hx]
        exact dget_eq_none_of_not_mem L p.1 hk
      have hdg2 : dget (p :: L) x = some p.2 := by
        unfold dget
        rw [List.find?_cons_of_pos _ (by simp [hx])]
        rfl
      rw [hdg, hdg2]
      simp only [hx, updUser_users_self]
    · have hdg2 : dget (p :: L) x = dget L x := by
        unfold dget
        rw [List.find?_cons_of_neg _ (by simp; exact fun h => hx h.symm)]
      rw [hdg2]
      have hne := updUser_users_ne db p.1 x (revUser p.2) hx
      cases hdl : dget L x with
      | none => simp only [hne]
      | some dl => simp only [hne]

theorem cfold_users (C : List ChampDelta) (db : DB) :
    (C.foldl (fun d c => d.updChamp c.user_id c.champion (revChamp c)) db).users
      = db.users := by
  induction C generalizing db with
  | nil => rfl
  | cons c C ih =>
    rw [List.foldl_cons, ih]
    rfl

theorem revert_users (db : DB) (m : Match) (x : String) :
    (revert_snapshot db m).1.users x
      = (m.result_deltas.users.foldl (fun d p => d.updUser p.1 (revUser p.2)) db).users x := by
  unfold revert_snapshot
  simp only [setMatch_users, cfold_users]

/-- Evaluation of `admin_match_cancel` on a finished match: the store seen
afterwards is the user-revert fold (the champion-stat fold and the match-row
updates leave `users` alone). -/
theorem admin_match_cancel_users (db : DB) (key : String) (m : Match)
    (hf : find_match_by_key db key = some m) (hst : m.status = .finished) (x : String) :
    (admin_match_cancel true db key).1.users x
      = (m.result_deltas.users.foldl (fun d p => d.updUser p.1 (revUser p.2)) db).users x := by
  unfold admin_match_cancel
  simp only [hf]
  rw [if_neg (fun h => h trivial), if_pos hst]
  exact revert_users db m x

/-- The finished match row written back by `_apply_finalize_and_snapshot`. -/
def finRow (nowT : ℤ) (m : Match) (wt : ℤ) (st3 : FinSt) : Match :=
  { m with status := .finished, winner_team := some wt,
           finished_at := some nowT,
           result_deltas := ⟨st3.uds, st3.cds⟩ }

theorem apply_finalize_eq2 (nowT : ℤ) (db : DB) (mid : String) (wt : ℤ) (m : Match)
    (h1 : db.getMatch mid = some m) (h2 : m.status ≠ .finished)
    (h3 : wt = 1 ∨ wt = 2) :
    apply_finalize_and_snapshot nowT db mid wt =
      ((finalizeSt db m wt).db.setMatch (finRow nowT m wt (finalizeSt db m wt)),
       .ok ()) :=
  apply_finalize_eq nowT db mid wt m h1 h2 h3

theorem finalized_getMatch (nowT : ℤ) (db : DB) (mid : String) (wt : ℤ) (m : Match)
    (h1 : db.getMatch mid = some m) :
    ((finalizeSt db m wt).db.setMatch (finRow nowT m wt (finalizeSt db m wt))).getMatch mid
      = some (finRow nowT m wt (finalizeSt db m wt)) := by
  apply getMatch_setMatch_self
  · rw [getMatch_eq_of_matchRows (dbFrame_matchRows (finalizeSt_frame db m wt)) mid]
    exact h1
  · exact getMatch_id db mid m h1

/-- **C10.**  Implicit frame property of the revert: the per-user snapshot
entries carry no `streaks_broken` delta and `_revert_snapshot` subtracts
none, so cancelling a finished match preserves every user's `streaks_broken`
— in particular each winner of the settlement permanently keeps the
increment (one per streaked loser) that the settlement had applied. -/
theorem c10_cancel_streaks_broken (nowT : ℤ) (db : DB) (mid : String) (wt : ℤ)
    (m : Match)
    (h1 : db.getMatch mid = some m) (h2 : m.status ≠ .finished)
    (h3 : wt = 1 ∨ wt = 2)
    (hW : (winnersOf m wt).Nodup) (hL : (losersOf m wt).Nodup)
    (hdisj : ∀ y, y ∈ winnersOf m wt → y ∉ losersOf m wt) :
    (∀ x, Option.map UserStats.streaks_broken
        ((admin_match_cancel true (apply_finalize_and_snapshot nowT db mid wt).1 mid).1.users x)
      = Option.map UserStats.streaks_broken
        ((apply_finalize_and_snapshot nowT db mid wt).1.users x))
    ∧ ∀ x ∈ winnersOf m wt, ∀ u, db.users x = some u →
        ∃ u2, (admin_match_cancel true (apply_finalize_and_snapshot nowT db mid wt).1 mid).1.users x
            = some u2
          ∧ u2.streaks_broken = u.streaks_broken + qualifyingCount db (losersOf m wt) := by
  rw [apply_finalize_eq2 nowT db mid wt m h1 h2 h3]
  have hfk := find_match_by_key_of_getMatch _ mid _ (finalized_getMatch nowT db mid wt m h1)
  have hcu : ∀ x, (admin_match_cancel true ((finalizeSt db m wt).db.setMatch
        (finRow nowT m wt (finalizeSt db m wt))) mid).1.users x
      = ((finRow nowT m wt (finalizeSt db m wt)).result_deltas.users.foldl
          (fun d p => d.updUser p.1 (revUser p.2))
          ((finalizeSt db m wt).db.setMatch (finRow nowT m wt (finalizeSt db m wt)))).users x :=
    fun x => admin_match_cancel_users _ mid _ hfk rfl x
  constructor
  · intro x
    rw [hcu x, rfold_streaks_broken]
  · intro x hx u hu
    have hxl : x ∉ losersOf m wt := hdisj x hx
    have hb1 : ((finalizeSt db m wt).db.setMatch
          (finRow nowT m wt (finalizeSt db m wt))).users x
        = some (addCB (betCount wt (mbetsOf db m) x)
            (winUpd db.cfg.points_win (compute_streak_bonus_per_winner db (losersOf m wt))
              (qualifyingCount db (losersOf m wt)) u)) := by
      rw [setMatch_users, finalizeSt_users db m wt hW hL hdisj x]
      simp only [settledUsers, if_neg hxl, if_pos hx, hu, Option.map_some]
      rw [bcDict_dget db (winnersOf m wt) (losersOf m wt) hW x hx]
      rfl
    have hsb := rfold_streaks_broken ((finRow nowT m wt (finalizeSt db m wt)).result_deltas.users)
      ((finalizeSt db m wt).db.setMatch (finRow nowT m wt (finalizeSt db m wt))) x
    rw [hb1] at hsb
    rw [hcu x]
    cases hfin : ((finRow nowT m wt (finalizeSt db m wt)).result_deltas.users.foldl
        (fun d p => d.updUser p.1 (revUser p.2))
        ((finalizeSt db m wt).db.setMatch (finRow nowT m wt (finalizeSt db m wt)))).users x with
    | none =>
      rw [hfin] at hsb
      simp at hsb
    | some u2 =>
      rw [hfin] at hsb
      refine ⟨u2, rfl, ?_⟩
      have hsb2 : u2.streaks_broken
          = (addCB (betCount wt (mbetsOf db m) x)
              (winUpd db.cfg.points_win (compute_streak_bonus_per_winner db (losersOf m wt))
                (qualifyingCount db (losersOf m wt)) u)).streaks_broken := by
        simpa using hsb
      rw [hsb2]
      simp [addCB, winUpd]

theorem c10_witness :
    ∃ u2, (admin_match_cancel true (apply_finalize_and_snapshot 0 dbC3 "m3" 1).1 "m3").1.users "w1"
        = some u2
      ∧ u2.streaks_broken = 2 + 1 := by
  obtain ⟨hall, hwin⟩ :=
    c10_cancel_streaks_broken 0 dbC3 "m3" 1 mC3
      (by simp [DB.getMatch, dbC3, List.find?, mC3])
      (by decide) (Or.inl rfl) (by decide) (by decide)
      (by
        intro y hy hy2
        simp [winnersOf, losersOf, mC3] at hy hy2
        rcases hy with rfl | rfl | rfl <;> simp at hy2)
  obtain ⟨u2, he, hb⟩ := hwin "w1" (by decide) ⟨10, 0, 0, 0, 0, 0, 2, 0⟩
    (by simp [dbC3, usersC3])
  refine ⟨u2, he, ?_⟩
  rw [hb]
  have hl1 : usersC3 "l1" = some ⟨0, 0, 0, 0, 6, 6, 0, 0⟩ := rfl
  have hl2 : usersC3 "l2" = some ⟨0, 0, 0, 0, 1, 1, 0, 0⟩ := rfl
  have hl3 : usersC3 "l3" = some ⟨0, 0, 0, 0, 1, 1, 0, 0⟩ := rfl
  norm_num [losersOf, mC3, dbC3, qualifyingCount, qualifies_streaked, hl1, hl2, hl3,
    List.filter_cons, List.filter_nil]

/-! ### The revert/refinalize round trip on the five reverted stats -/

/-- The five user stats the revert claims to restore: score, wins, losses,
played and current streak (`max_streak` is deliberately excluded, matching
the known limitation of the source). -/
def coreOf : Option UserStats → Option (ℚ × ℤ × ℤ × ℤ × ℤ)
  | none => none
  | some u => some (u.score, u.wins, u.losses, u.played, u.current_streak)

theorem coreOf_revUser (d : UserDelta) (v : UserStats) :
    coreOf (some (revUser d v))
      = some (v.score - d.score_delta, v.wins - d.wins_delta,
          v.losses - d.losses_delta, v.played - d.played_delta, d.streak_old) := by
  unfold revUser coreOf
  by_cases h : d.correct_bets_delta ≠ 0
  · rw [if_pos h]
  · rw [if_neg h]

theorem revUser_score (d : UserDelta) (u : UserStats) :
    (revUser d u).score = u.score - d.score_delta := by
  unfold revUser
  by_cases h : d.correct_bets_delta ≠ 0
  · rw [if_pos h]
  · rw [if_neg h]

theorem revUser_wins (d : UserDelta) (u : UserStats) :
    (revUser d u).wins = u.wins - d.wins_delta := by
  unfold revUser
  by_cases h : d.correct_bets_delta ≠ 0
  · rw [if_pos h]
  · rw [if_neg h]

theorem revUser_losses (d : UserDelta) (u : UserStats) :
    (revUser d u).losses = u.losses - d.losses_delta := by
  unfold revUser
  by_cases h : d.correct_bets_delta ≠ 0
  · rw [if_pos h]
  · rw [if_neg h]

theorem revUser_played (d : UserDelta) (u : UserStats) :
    (revUser d u).played = u.played - d.played_delta := by
  unfold revUser
  by_cases h : d.correct_bets_delta ≠ 0
  · rw [if_pos h]
  · rw [if_neg h]

theorem revUser_current_streak (d : UserDelta) (u : UserStats) :
    (revUser d u).current_streak = d.streak_old := by
  unfold revUser
  by_cases h : d.correct_bets_delta ≠ 0
  · rw [if_pos h]
  · rw [if_neg h]

theorem coreOf_map_addCB (k : ℤ) (o : Option UserStats) :
    coreOf (o.map (addCB k)) = coreOf o := by
  cases o <;> rfl

theorem coreOf_map_loseUpd (pl : ℚ) (o : Option UserStats) :
    coreOf (o.map (loseUpd pl))
      = (coreOf o).map (fun c => (c.1 + pl, c.2.1, c.2.2.1 + 1, c.2.2.2.1 + 1, 0)) := by
  cases o <;> rfl

theorem coreOf_map_winUpd (pw b : ℚ) (q : ℤ) (o : Option UserStats) :
    coreOf (o.map (winUpd pw b q))
      = (coreOf o).map
          (fun c => (c.1 + (pw + b), c.2.1 + 1, c.2.2.1, c.2.2.2.1 + 1, c.2.2.2.2 + 1)) := by
  cases o <;> rfl

theorem compute_congr (dbA dbB : DB)
    (hc : ∀ y, coreOf (dbA.users y) = coreOf (dbB.users y))
    (hcfg : dbA.cfg = dbB.cfg) (L : List String) :
    compute_streak_bonus_per_winner dbA L = compute_streak_bonus_per_winner dbB L := by
  rw [compute_streak_bonus_eq_sum, compute_streak_bonus_eq_sum, hcfg]
  congr 1
  apply List.map_congr_left
  intro uid _
  have h := hc uid
  cases ha : dbA.users uid with
  | none =>
    cases hb : dbB.users uid with
    | none => rfl
    | some b =>
      rw [ha, hb] at h
      simp [coreOf] at h
  | some a =>
    cases hb : dbB.users uid with
    | none =>
      rw [ha, hb] at h
      simp [coreOf] at h
    | some b =>
      rw [ha, hb] at h
      simp only [coreOf, Option.some.injEq, Prod.mk.injEq] at h
      simp only [h.2.2.2.2]

theorem settledUsers_core_congr (dbA dbB : DB) (mA mB : Match) (wt : ℤ)
    (ht1 : mA.team1 = mB.team1) (ht2 : mA.team2 = mB.team2)
    (hc : ∀ y, coreOf (dbA.users y) = coreOf (dbB.users y))
    (hcfg : dbA.cfg = dbB.cfg) (x : String) :
    coreOf (settledUsers dbA mA wt x) = coreOf (settledUsers dbB mB wt x) := by
  have hw : winnersOf mA wt = winnersOf mB wt := by
    unfold winnersOf
    rw [ht1, ht2]
  have hl : losersOf mA wt = losersOf mB wt := by
    unfold losersOf
    rw [ht1, ht2]
  unfold settledUsers
  rw [hw, hl, hcfg, compute_congr dbA dbB hc hcfg]
  by_cases hxl : x ∈ losersOf mB wt
  · rw [if_pos hxl, if_pos hxl, coreOf_map_loseUpd, coreOf_map_loseUpd, hc x]
  · rw [if_neg hxl, if_neg hxl]
    by_cases hxw : x ∈ winnersOf mB wt
    · rw [if_pos hxw, if_pos hxw, coreOf_map_winUpd, coreOf_map_winUpd, hc x]
    · rw [if_neg hxw, if_neg hxw]
      exact hc x

theorem betsDictSpec_some_some (v : UserStats) (d : UserDelta) (k : ℤ) :
    ∃ d', betsDictSpec (some v) (some d) k = some d'
      ∧ d'.score_delta = d.score_delta ∧ d'.wins_delta = d.wins_delta
      ∧ d'.losses_delta = d.losses_delta ∧ d'.played_delta = d.played_delta
      ∧ d'.streak_old = d.streak_old := by
  simp only [betsDictSpec]
  by_cases hk : k = 0
  · rw [if_pos hk]
    exact ⟨d, rfl, rfl, rfl, rfl, rfl, rfl⟩
  · rw [if_neg hk]
    exact ⟨_, rfl, rfl, rfl, rfl, rfl, rfl⟩

theorem rfold_frame (L : List (String × UserDelta)) (db : DB) :
    dbFrame (L.foldl (fun d p => d.updUser p.1 (revUser p.2)) db) = dbFrame db := by
  induction L generalizing db with
  | nil => rfl
  | cons p L ih =>
    rw [List.foldl_cons, ih]
    rfl

theorem cfold_frame (C : List ChampDelta) (db : DB) :
    dbFrame (C.foldl (fun d c => d.updChamp c.user_id c.champion (revChamp c)) db)
      = dbFrame db := by
  induction C generalizing db with
  | nil => rfl
  | cons c C ih =>
    rw [List.foldl_cons, ih]
    rfl

/-- The effect of the revert fold on the five restored stats: reverting a
store produced by the settlement loops gives back the pre-settlement values
pointwise. -/
theorem coreOf_after_revert (db : DB) (m : Match) (wt : ℤ)
    (hW : (winnersOf m wt).Nodup) (hL : (losersOf m wt).Nodup)
    (hdisj : ∀ y, y ∈ winnersOf m wt → y ∉ losersOf m wt) (y : String) :
    coreOf (match dget (finalizeSt db m wt).uds y with
            | some dl => ((finalizeSt db m wt).db.users y).map (revUser dl)
            | none => (finalizeSt db m wt).db.users y)
      = coreOf (db.users y) := by
  rw [finalizeSt_users db m wt hW hL hdisj y, finalizeSt_uds db m wt hW hL hdisj y]
  by_cases hyl : y ∈ losersOf m wt
  · have hyw : y ∉ winnersOf m wt := fun h => hdisj y h hyl
    simp only [settledUsers, settledDelta, if_pos hyl, if_neg hyw]
    cases hu : db.users y with
    | none => rfl
    | some u =>
      obtain ⟨d', hd', h1, h2, h3, h4, h5⟩ :=
        betsDictSpec_some_some (loseUpd db.cfg.points_loss u)
          (loseDelta db.cfg.points_loss u) (betCount wt (mbetsOf db m) y)
      simp only [Option.map_some']
      rw [hd']
      simp only [coreOf, revUser_score, revUser_wins, revUser_losses, revUser_played,
        revUser_current_streak, h1, h2, h3, h4, h5, loseDelta, loseUpd, addCB]
      norm_num
  · by_cases hyw : y ∈ winnersOf m wt
    · simp only [settledUsers, settledDelta, if_neg hyl, if_pos hyw]
      cases hu : db.users y with
      | none => rfl
      | some u =>
        obtain ⟨d', hd', h1, h2, h3, h4, h5⟩ :=
          betsDictSpec_some_some
            (winUpd db.cfg.points_win (compute_streak_bonus_per_winner db (losersOf m wt))
              ((dget (bcDict db (winnersOf m wt) (losersOf m wt)) y).getD 0) u)
            (winDelta db.cfg.points_win (compute_streak_bonus_per_winner db (losersOf m wt)) u)
            (betCount wt (mbetsOf db m) y)
        simp only [Option.map_some']
        rw [hd']
        simp only [coreOf, revUser_score, revUser_wins, revUser_losses, revUser_played,
          revUser_current_streak, h1, h2, h3, h4, h5, winDelta, winUpd, addCB]
        norm_num
    · simp only [settledUsers, settledDelta, if_neg hyl, if_neg hyw]
      cases hu : db.users y with
      | none => rfl
      | some u =>
        by_cases hk : betCount wt (mbetsOf db m) y = 0
        · simp only [betsDictSpec, if_pos hk, hk, Option.map_some', addCB_zero, if_true]
        · simp only [betsDictSpec, if_neg hk, Option.map_some']
          simp only [coreOf, revUser_score, revUser_wins, revUser_losses, revUser_played,
            revUser_current_streak, addCB]
          norm_num

/-- Evaluation of `admin_match_override` on a finished match: revert, reopen
to in_progress, then settle again with the admin winner. -/
theorem admin_match_override_finished (t2 : ℤ) (db1 : DB) (key : String) (m1 : Match)
    (hf : find_match_by_key db1 key = some m1) (hst : m1.status = .finished) (wt2 : ℤ) :
    admin_match_override true t2 db1 key wt2
      = apply_finalize_and_snapshot t2
          ((revert_snapshot db1 m1).1.setMatch
            { (revert_snapshot db1 m1).2 with status := .in_progress }) m1.id wt2 := by
  unfold admin_match_override
  simp only [hf]
  rw [if_neg (fun h => h trivial), if_pos hst]

theorem revert_getMatch (db : DB) (m : Match) (mid : String) (m0 : Match)
    (h : db.getMatch mid = some m0) (hid : m.id = mid) :
    (revert_snapshot db m).1.getMatch mid = some (revert_snapshot db m).2 := by
  simp only [revert_snapshot]
  apply getMatch_setMatch_self _ _ m0
  · exact (getMatch_eq_of_matchRows
      (dbFrame_matchRows ((cfold_frame _ _).trans (rfold_frame _ _))) mid).trans h
  · exact hid

/-- **C4.**  The revert-then-override round trip: settling a match and then
running the admin override with the same winner — which reverts the
snapshot, transiently reopens the match and re-runs settlement — restores
every player's score, wins, losses, played and current streak (the `coreOf`
projection; `max_streak` is deliberately excluded) to exactly the values
they had before the revert. -/
theorem c4_revert_refinalize (t1 t2 : ℤ) (db : DB) (mid : String) (wt : ℤ) (m : Match)
    (h1 : db.getMatch mid = some m) (h2 : m.status ≠ .finished) (h3 : wt = 1 ∨ wt = 2)
    (hW : (winnersOf m wt).Nodup) (hL : (losersOf m wt).Nodup)
    (hdisj : ∀ y, y ∈ winnersOf m wt → y ∉ losersOf m wt) (x : String) :
    coreOf ((admin_match_override true t2
        (apply_finalize_and_snapshot t1 db mid wt).1 mid wt).1.users x)
      = coreOf ((apply_finalize_and_snapshot t1 db mid wt).1.users x) := by
  have hid : m.id = mid := getMatch_id db mid m h1
  have hdb1 : (apply_finalize_and_snapshot t1 db mid wt).1
      = (finalizeSt db m wt).db.setMatch (finRow t1 m wt (finalizeSt db m wt)) := by
    rw [apply_finalize_eq2 t1 db mid wt m h1 h2 h3]
  rw [hdb1]
  have hfk : find_match_by_key
      ((finalizeSt db m wt).db.setMatch (finRow t1 m wt (finalizeSt db m wt))) mid
      = some (finRow t1 m wt (finalizeSt db m wt)) :=
    find_match_by_key_of_getMatch _ mid _ (finalized_getMatch t1 db mid wt m h1)
  rw [admin_match_override_finished t2 _ mid _ hfk rfl wt]
  rw [show (finRow t1 m wt (finalizeSt db m wt)).id = mid from hid]
  have hrg : (revert_snapshot
        ((finalizeSt db m wt).db.setMatch (finRow t1 m wt (finalizeSt db m wt)))
        (finRow t1 m wt (finalizeSt db m wt))).1.getMatch mid
      = some (revert_snapshot
        ((finalizeSt db m wt).db.setMatch (finRow t1 m wt (finalizeSt db m wt)))
        (finRow t1 m wt (finalizeSt db m wt))).2 :=
    revert_getMatch _ _ mid _ (finalized_getMatch t1 db mid wt m h1) hid
  have hgm2 : ((revert_snapshot
        ((finalizeSt db m wt).db.setMatch (finRow t1 m wt (finalizeSt db m wt)))
        (finRow t1 m wt (finalizeSt db m wt))).1.setMatch
          { (revert_snapshot
              ((finalizeSt db m wt).db.setMatch (finRow t1 m wt (finalizeSt db m wt)))
              (finRow t1 m wt (finalizeSt db m wt))).2 with
              status := Status.in_progress }).getMatch mid
      = some { (revert_snapshot
              ((finalizeSt db m wt).db.setMatch (finRow t1 m wt (finalizeSt db m wt)))
              (finRow t1 m wt (finalizeSt db m wt))).2 with
              status := Status.in_progress } :=
    getMatch_setMatch_self _ mid _ _ hrg hid
  have hne2 : ({ (revert_snapshot
        ((finalizeSt db m wt).db.setMatch (finRow t1 m wt (finalizeSt db m wt)))
        (finRow t1 m wt (finalizeSt db m wt))).2 with
        status := Status.in_progress } : Match).status ≠ Status.finished :=
    fun hcon => Status.noConfusion hcon
  have happ2 := apply_finalize_eq2 t2 _ mid wt _ hgm2 hne2 h3
  have hkey2 : (apply_finalize_and_snapshot t2
      ((revert_snapshot
          ((finalizeSt db m wt).db.setMatch (finRow t1 m wt (finalizeSt db m wt)))
          (finRow t1 m wt (finalizeSt db m wt))).1.setMatch
            { (revert_snapshot
                ((finalizeSt db m wt).db.setMatch (finRow t1 m wt (finalizeSt db m wt)))
                (finRow t1 m wt (finalizeSt db m wt))).2 with
                status := Status.in_progress }) mid wt).1.users x
      = (finalizeSt ((revert_snapshot
          ((finalizeSt db m wt).db.setMatch (finRow t1 m wt (finalizeSt db m wt)))
          (finRow t1 m wt (finalizeSt db m wt))).1.setMatch
            { (revert_snapshot
                ((finalizeSt db m wt).db.setMatch (finRow t1 m wt (finalizeSt db m wt)))
                (finRow t1 m wt (finalizeSt db m wt))).2 with
                status := Status.in_progress })
          { (revert_snapshot
              ((finalizeSt db m wt).db.setMatch (finRow t1 m wt (finalizeSt db m wt)))
              (finRow t1 m wt (finalizeSt db m wt))).2 with
              status := Status.in_progress } wt).db.users x := by
    rw [happ2]
    rfl
  rw [hkey2]
  have hteam1 : ({ (revert_snapshot
        ((finalizeSt db m wt).db.setMatch (finRow t1 m wt (finalizeSt db m wt)))
        (finRow t1 m wt (finalizeSt db m wt))).2 with
        status := Status.in_progress } : Match).team1 = m.team1 := rfl
  have hteam2 : ({ (revert_snapshot
        ((finalizeSt db m wt).db.setMatch (finRow t1 m wt (finalizeSt db m wt)))
        (finRow t1 m wt (finalizeSt db m wt))).2 with
        status := Status.in_progress } : Match).team2 = m.team2 := rfl
  have hwEq : winnersOf { (revert_snapshot
        ((finalizeSt db m wt).db.setMatch (finRow t1 m wt (finalizeSt db m wt)))
        (finRow t1 m wt (finalizeSt db m wt))).2 with
        status := Status.in_progress } wt = winnersOf m wt := by
    unfold winnersOf
    rw [hteam1, hteam2]
  have hlEq : losersOf { (revert_snapshot
        ((finalizeSt db m wt).db.setMatch (finRow t1 m wt (finalizeSt db m wt)))
        (finRow t1 m wt (finalizeSt db m wt))).2 with
        status := Status.in_progress } wt = losersOf m wt := by
    unfold losersOf
    rw [hteam1, hteam2]
  have hdisj2 : ∀ y, y ∈ winnersOf { (revert_snapshot
        ((finalizeSt db m wt).db.setMatch (finRow t1 m wt (finalizeSt db m wt)))
        (finRow t1 m wt (finalizeSt db m wt))).2 with
        status := Status.in_progress } wt →
      y ∉ losersOf { (revert_snapshot
        ((finalizeSt db m wt).db.setMatch (finRow t1 m wt (finalizeSt db m wt)))
        (finRow t1 m wt (finalizeSt db m wt))).2 with
        status := Status.in_progress } wt := by
    intro y hy
    rw [hlEq]
    exact hdisj y (hwEq ▸ hy)
  have hcore : ∀ y, coreOf (((revert_snapshot
        ((finalizeSt db m wt).db.setMatch (finRow t1 m wt (finalizeSt db m wt)))
        (finRow t1 m wt (finalizeSt db m wt))).1.setMatch
          { (revert_snapshot
              ((finalizeSt db m wt).db.setMatch (finRow t1 m wt (finalizeSt db m wt)))
              (finRow t1 m wt (finalizeSt db m wt))).2 with
              status := Status.in_progress }).users y)
      = coreOf (db.users y) := by
    intro y
    have hry : ((revert_snapshot
          ((finalizeSt db m wt).db.setMatch (finRow t1 m wt (finalizeSt db m wt)))
          (finRow t1 m wt (finalizeSt db m wt))).1.setMatch
            { (revert_snapshot
                ((finalizeSt db m wt).db.setMatch (finRow t1 m wt (finalizeSt db m wt)))
                (finRow t1 m wt (finalizeSt db m wt))).2 with
                status := Status.in_progress }).users y
        = match dget (finalizeSt db m wt).uds y with
          | some dl => ((finalizeSt db m wt).db.users y).map (revUser dl)
          | none => (finalizeSt db m wt).db.users y := by
      rw [setMatch_users, revert_users]
      exact rfold_users (finalizeSt db m wt).uds (finalizeSt_uds_keys db m wt) _ y
    rw [hry]
    exact coreOf_after_revert db m wt hW hL hdisj y
  have hcfg : ((revert_snapshot
        ((finalizeSt db m wt).db.setMatch (finRow t1 m wt (finalizeSt db m wt)))
        (finRow t1 m wt (finalizeSt db m wt))).1.setMatch
          { (revert_snapshot
              ((finalizeSt db m wt).db.setMatch (finRow t1 m wt (finalizeSt db m wt)))
              (finRow t1 m wt (finalizeSt db m wt))).2 with
              status := Status.in_progress }).cfg = db.cfg := by
    have e1 : ((revert_snapshot
          ((finalizeSt db m wt).db.setMatch (finRow t1 m wt (finalizeSt db m wt)))
          (finRow t1 m wt (finalizeSt db m wt))).1.setMatch
            { (revert_snapshot
                ((finalizeSt db m wt).db.setMatch (finRow t1 m wt (finalizeSt db m wt)))
                (finRow t1 m wt (finalizeSt db m wt))).2 with
                status := Status.in_progress }).cfg
        = ((finRow t1 m wt (finalizeSt db m wt)).result_deltas.champions.foldl
            (fun d c => d.updChamp c.user_id c.champion (revChamp c))
            ((finRow t1 m wt (finalizeSt db m wt)).result_deltas.users.foldl
              (fun d p => d.updUser p.1 (revUser p.2))
              ((finalizeSt db m wt).db.setMatch (finRow t1 m wt (finalizeSt db m wt))))).cfg :=
      rfl
    rw [e1, dbFrame_cfg ((cfold_frame _ _).trans (rfold_frame _ _)), setMatch_cfg]
    exact dbFrame_cfg (finalizeSt_frame db m wt)
  rw [finalizeSt_users _ _ wt (hwEq.symm ▸ hW) (hlEq.symm ▸ hL) hdisj2 x, coreOf_map_addCB]
  rw [setMatch_users, finalizeSt_users db m wt hW hL hdisj x, coreOf_map_addCB]
  exact settledUsers_core_congr _ db _ m wt hteam1 hteam2 hcore hcfg x

theorem c4_witness :
    coreOf ((admin_match_override true 7
        (apply_finalize_and_snapshot 0 dbC3 "m3" 1).1 "m3" 1).1.users "l1")
      = coreOf ((apply_finalize_and_snapshot 0 dbC3 "m3" 1).1.users "l1") :=
  c4_revert_refinalize 0 7 dbC3 "m3" 1 mC3
    (by simp [DB.getMatch, dbC3, List.find?, mC3])
    (by decide) (Or.inl rfl) (by decide) (by decide)
    (by
      intro y hy hy2
      simp [winnersOf, losersOf, mC3] at hy hy2
      rcases hy with rfl | rfl | rfl <;> simp at hy2)
    "l1"

end InhouseBR
